import Mathlib

/-!
Verification of the edea KiCad s-expression marshaling engine against its
natural-language specification.

The development shallow-embeds the Python sources of the repository:

* `src/edea/kicad/s_expr.py` — s-expression values (`SExpr`), where the
  `QuotedStr` subclass of `str` is modelled by a `quoted` flag on atoms
  (Python string equality ignores the subclass, so all comparisons below
  compare atom contents only);
* `src/edea/types/number.py` — `number_to_str` (numeric canonicalization);
* `src/edea/types/serializer.py` — `_special_chars`, `_escape`,
  `from_list_to_str` (the printer);
* `src/edea/kicad/parser.py` — the tokenizer and `_tokens_to_list` /
  `from_str_to_list`;
* `src/edea/kicad/base.py` — the generic decoder/encoder
  (`_split_args`, `_starts_with_number`, `_parse_field`, `_parse_as`,
  `KicadExpr.from_list`, `KicadExpr.to_list`, `_serialize_field`,
  `_serialize_as`, `_value_to_str`), over a deep embedding of the
  dataclass schemas (`FieldSpec`, `RecordSchema`);
* concrete schemas transcribed from `src/edea/kicad/schematic/schematic.py`
  and `src/edea/kicad/pcb/footprint.py`.

Python numbers are modelled by `ℤ` and `ℚ` (floating point itself is not
shallow-embeddable; every concrete number appearing in the claims is
exactly representable and rounds identically). Python exceptions are
modelled by the `PyErr` type. Recursion through the heap is modelled with
an explicit fuel parameter; fuel exhaustion is reported as
`PyErr.recursionError` and never occurs at the fuel used in the concrete
theorems below.
-/

/-- An s-expression node: either a leaf atom (a Python `str`, with
`quoted := true` when the Python object is the `QuotedStr` subclass) or a
list of child nodes. Mirrors `SExprList` from `src/edea/kicad/s_expr.py`. -/
inductive SExpr where
  | atom (s : String) (quoted : Bool)
  | list (xs : List SExpr)

/-- Python exceptions raised by the embedded code, by class. -/
inductive PyErr where
  | valueError (msg : String)
  | typeError (msg : String)
  | validationError (msg : String)
  | versionError (msg : String)
  | eofError (msg : String)
  | syntaxError (msg : String)
  | indexError
  | notImplementedError
  | exceptionOther (msg : String)
  | recursionError
deriving DecidableEq, Repr

/-- Note: `VersionError` subclasses `ValueError` (`src/edea/kicad/common.py:204`)
and pydantic's `ValidationError` subclasses `ValueError`, so all three are
`ValueError`-class exceptions. -/
def PyErr.isValueErrorClass : PyErr → Bool
  | .valueError _ => true
  | .versionError _ => true
  | .validationError _ => true
  | _ => false

/-- The exception classes caught by the union-trial loop in `_parse_as`
(`src/edea/kicad/base.py:274`): `ValidationError`, `TypeError`,
`ValueError` (which covers `VersionError`). -/
def PyErr.isCaughtByUnion : PyErr → Bool
  | .validationError _ => true
  | .typeError _ => true
  | .valueError _ => true
  | .versionError _ => true
  | _ => false

/-! ## Numeric canonicalization (`src/edea/types/number.py`) -/

/-- Round the fraction `a / b` (with `b > 0`) to the nearest integer, ties
to even: the rounding Python's fixed-point float formatting performs.
Implemented over `ℤ` so that it reduces in the kernel. -/
def roundHalfEven (a b : ℤ) : ℤ :=
  let f := Int.fdiv a b
  let r2 := 2 * (a - f * b)
  if r2 < b then f
  else if b < r2 then f + 1
  else if f % 2 = 0 then f else f + 1

/-- Decimal digit character for `n < 10`. -/
def digitChar (n : ℕ) : Char := Char.ofNat (48 + n)

/-- Decimal digits of a natural number, most significant first
(helper with fuel; `natToDigits` supplies enough fuel). -/
def natDigitsAux : ℕ → ℕ → List Char
  | 0, _ => []
  | fuel + 1, n =>
    if n < 10 then [digitChar n]
    else natDigitsAux fuel (n / 10) ++ [digitChar (n % 10)]

/-- Decimal digits of a natural number, most significant first. -/
def natToDigits (n : ℕ) : List Char := natDigitsAux (n + 1) n

/-- Left-pad a digit list with `'0'` to length `n` (Python's fixed-point
formatting always prints exactly `precision` fraction digits). -/
def padZeros (l : List Char) (n : ℕ) : List Char :=
  List.replicate (n - l.length) '0' ++ l

/-- Remove all trailing occurrences of `c`, as Python's `str.rstrip`. -/
def stripTrailing (c : Char) (l : List Char) : List Char :=
  (l.reverse.dropWhile (· = c)).reverse

/-- Transcribes `number_to_str` from `src/edea/types/number.py`: format the value in
fixed point with `precision` fraction digits (`f"{v:.{precision}f}"`),
then strip trailing zeros and a trailing decimal point
(`.rstrip("0").rstrip(".")`). The Python value is a float/int/Decimal;
it is modelled here as a rational. -/
def number_to_str (v : ℚ) (precision : ℕ := 6) : String :=
  let scaled : ℤ := roundHalfEven (v.num * 10 ^ precision) v.den
  let n : ℕ := scaled.natAbs
  let ip : ℕ := n / 10 ^ precision
  let fp : ℕ := n % 10 ^ precision
  let body : List Char :=
    natToDigits ip ++
      (if precision = 0 then [] else '.' :: padZeros (natToDigits fp) precision)
  let signed : List Char := (if scaled < 0 then ['-'] else []) ++ body
  ⟨stripTrailing '.' (stripTrailing '0' signed)⟩

/-! ## The printer (`src/edea/types/serializer.py`) -/

/-- Transcribes `_special_chars` from `src/edea/types/serializer.py:13`: space, parens,
double quote, backslash, the control characters `\x00`–`\x1f`, the
non-breaking space `\xa0`, `\x85`, and the en quad ` `. -/
def _special_chars : List Char :=
  [' ', '(', ')', '"', '\\'] ++ (List.range 32).map Char.ofNat ++
    [Char.ofNat 0xa0, Char.ofNat 0x85, Char.ofNat 0x2000]

/-- Transcribes `_escape` from `src/edea/types/serializer.py:73`: escape backslashes,
then double quotes. The two sequential `str.replace` calls are equivalent
to this single pass because neither replacement creates an occurrence of
the other pattern to its left. -/
def _escape (s : String) : String :=
  ⟨s.data.flatMap fun c =>
    if c = '\\' then ['\\', '\\'] else if c = '"' then ['\\', '"'] else [c]⟩

mutual
/-- Transcribes `from_list_to_str` from `src/edea/types/serializer.py:63`: render an
expression tree to text. A string leaf is quoted when it is empty or
contains a special character; otherwise it is emitted bare (note: the
`quoted` flag of the atom — the Python `QuotedStr` subclass — is not
consulted by this function). Lists render as `(child child ...)`. -/
def from_list_to_str : SExpr → String
  | .atom s _ =>
    if s = "" then "\"\""
    else if s.data.any (· ∈ _special_chars) then "\"" ++ _escape s ++ "\""
    else s
  | .list xs => "(" ++ String.intercalate " " (from_list_to_str_each xs) ++ ")"

/-- Renders each child of a list node (the Python list comprehension inside
`from_list_to_str`). -/
def from_list_to_str_each : List SExpr → List String
  | [] => []
  | x :: xs => from_list_to_str x :: from_list_to_str_each xs
end

/-! ## The tokenizer (`src/edea/kicad/parser.py`) -/

/-- Python's `\s` for the ASCII range: the characters the tokenizer regex
never matches and therefore skips. -/
def isPySpace (c : Char) : Bool :=
  c = ' ' ∨ c = '\t' ∨ c = '\n' ∨ c = '\x0b' ∨ c = '\x0c' ∨ c = '\r'

/-- A character that cannot extend a bare-word token (the regex class
`[^\s()"]+`). -/
def isWordBreak (c : Char) : Bool :=
  isPySpace c ∨ c = '(' ∨ c = ')' ∨ c = '"'

/-- Scan a complete quoted-string token starting after an opening `"`:
the regex `"[^"\\]*(?:\\.[^"\\]*)*"`. Returns the token body (with the
surrounding quotes) and the rest, or `none` when no closing quote is
reachable (then the alternation falls back to a lone `"` token). `\\.`
does not match a newline (the regex is compiled without `DOTALL`). -/
def scanQuoted : List Char → Option (List Char × List Char)
  | [] => none
  | c :: rest =>
    if c = '"' then some ([], rest)
    else if c = '\\' then
      match rest with
      | [] => none
      | e :: rest' =>
        if e = '\n' then none
        else match scanQuoted rest' with
          | none => none
          | some (body, rem) => some (c :: e :: body, rem)
    else match scanQuoted rest with
      | none => none
      | some (body, rem) => some (c :: body, rem)

/-- Take the longest run of bare-word characters (the regex `[^\s()"]+`). -/
def scanWord : List Char → List Char × List Char
  | [] => ([], [])
  | c :: rest =>
    if isWordBreak c then ([], c :: rest)
    else let (w, rem) := scanWord rest; (c :: w, rem)

/-- The tokenizer: `_TOKENIZE_EXPR.findall(text)` from
`src/edea/kicad/parser.py:77`. Fueled on the remaining input length. -/
def tokenizeAux : ℕ → List Char → List String
  | 0, _ => []
  | _ + 1, [] => []
  | fuel + 1, c :: rest =>
    if isPySpace c then tokenizeAux fuel rest
    else if c = '(' then "(" :: tokenizeAux fuel rest
    else if c = ')' then ")" :: tokenizeAux fuel rest
    else if c = '"' then
      match scanQuoted rest with
      | some (body, rem) => ⟨'"' :: body ++ ['"']⟩ :: tokenizeAux fuel rem
      | none => "\"" :: tokenizeAux fuel rest
    else
      let (w, rem) := scanWord (c :: rest)
      (⟨w⟩ : String) :: tokenizeAux fuel rem

/-- Tokenize a string (the `findall` call in `from_str_to_list`). -/
def tokenize (text : String) : List String :=
  tokenizeAux (text.length + 1) text.data

/-- One step of `str.replace` for a two-character pattern, left to right,
non-overlapping. -/
def replacePair (x y z : Char) : List Char → List Char
  | [] => []
  | [c] => [c]
  | a :: b :: rest =>
    if a = x ∧ b = y then z :: replacePair x y z rest
    else a :: replacePair x y z (b :: rest)

/-- Unescaping performed on quoted tokens in `_tokens_to_list`
(`src/edea/kicad/parser.py:70`): `token.replace("\\\\", "\\")` followed by
`token.replace("\\\"", "\"")`, as two sequential passes. -/
def unescapeToken (s : String) : String :=
  ⟨replacePair '\\' '"' '"' (replacePair '\\' '\\' '\\' s.data)⟩

/-- Does the token start and end with a double quote? For a single-character
token `"` both tests succeed in Python (`'"'.startswith('"')` and
`'"'.endswith('"')` are both true). -/
def isQuotedToken (s : String) : Bool :=
  (match s.data with | c :: _ => decide (c = '"') | [] => false) &&
    decide (s.data.getLast? = some '"')

/-- Applies `removeprefix('"')` then `removesuffix('"')` on a token. -/
def stripQuotes (s : String) : String :=
  let l := match s.data with | '"' :: rest => rest | l => l
  ⟨if l.getLast? = some '"' then l.dropLast else l⟩

mutual
/-- Transcribes `_tokens_to_list` from `src/edea/kicad/parser.py:43`. Takes the token
list and the current index; returns the next index and the parsed node.
Out-of-range accesses other than the explicit `len(tokens) == index` check
raise `IndexError`, as in Python. Fueled; the fuel is an embedding
artifact and `RecursionError` is never reached at the fuel used below. -/
def _tokens_to_list (tokens : List String) : ℕ → ℕ → Except PyErr (ℕ × SExpr)
  | 0, _ => .error .recursionError
  | fuel + 1, index =>
    if tokens.length = index then .error (.eofError "unexpected EOF")
    else match tokens.get? index with
      | none => .error .indexError
      | some token =>
        if token = "(" then
          match tokens.get? (index + 1) with
          | none => .error .indexError
          | some typ =>
            match tokensToListLoop tokens fuel (index + 2) [.atom typ false] with
            | .error e => .error e
            | .ok (i, xs) => .ok (i, .list xs)
        else if token = ")" then .error (.syntaxError "unexpected )")
        else if isQuotedToken token then
          .ok (index + 1, .atom (unescapeToken (stripQuotes token)) true)
        else .ok (index + 1, .atom token false)

/-- The `while tokens[index] != ")"` loop inside `_tokens_to_list`; the
unchecked `tokens[index]` access raises `IndexError` when the list is
never closed. -/
def tokensToListLoop (tokens : List String) :
    ℕ → ℕ → List SExpr → Except PyErr (ℕ × List SExpr)
  | 0, _, _ => .error .recursionError
  | fuel + 1, index, acc =>
    match tokens.get? index with
    | none => .error .indexError
    | some t =>
      if t = ")" then .ok (index + 1, acc)
      else
        match _tokens_to_list tokens fuel index with
        | .error e => .error e
        | .ok (i, sub) => tokensToListLoop tokens fuel i (acc ++ [sub])
end

/-- Transcribes `from_str_to_list` from `src/edea/kicad/parser.py:80`: tokenize the
text and parse the first expression; a top-level bare atom is a
`ValueError`. Tokens after the first complete expression are not
examined. -/
def from_str_to_list (text : String) : Except PyErr (List SExpr) :=
  let tokens := tokenize text
  match _tokens_to_list tokens (tokens.length + 1) 0 with
  | .error e => .error e
  | .ok (_, .atom s _) =>
    .error (.valueError ("Expected an expression but only got a string: " ++ s))
  | .ok (_, .list xs) => .ok xs

/-! ## The data model: annotations, runtime values, field schemas

`src/edea/kicad/base.py` drives decoding and encoding off the dataclass
field metadata of each `KicadExpr` subclass. The Python type annotations
appearing in the catalog are deep-embedded as `PyAnn`, runtime Python
values as `Value`, one dataclass field as `FieldSpec`, and one dataclass
as `RecordSchema`.
-/

/-- A Python type annotation as used by the schema catalog. `litA` models
`Literal[...]` (all permitted constants rendered as strings), `enumA`
models the `StrEnum` classes (member values as strings), `recA` names a
`KicadExpr` subclass by its Python class name, `uuidA` is `uuid.UUID`,
and `bareA` is the un-parameterized builtin `list` that
`get_full_seq_type` returns for an empty list
(`src/edea/types/_type_utils.py:20`). -/
inductive PyAnn where
  | strA
  | intA
  | floatA
  | boolA
  | uuidA
  | noneA
  | litA (vals : List String)
  | enumA (vals : List String)
  | recA (cls : String)
  | listA (t : PyAnn)
  | tupleA (ts : List PyAnn)
  | unionA (ts : List PyAnn)
  | bareA

/-- Transcribes `is_number` from `src/edea/types/number.py:5`: the annotation is
`int`, `float` or `Decimal`. -/
def is_number : PyAnn → Bool
  | .intA => true
  | .floatA => true
  | _ => false

/-- A runtime Python value held in a dataclass field. Strings carry the
`QuotedStr` flag; `vRec` is a dataclass instance, its slots in field
order. Floats are modelled as rationals. -/
inductive Value where
  | vStr (s : String) (quoted : Bool)
  | vInt (n : ℤ)
  | vFloat (q : ℚ)
  | vBool (b : Bool)
  | vNone
  | vList (vs : List Value)
  | vTuple (vs : List Value)
  | vRec (cls : String) (slots : List (String × Value))

/-- One dataclass field: name, annotation, default (`none` when the field
is required) and the `m(...)` metadata tags from `src/edea/kicad/_fields.py`.
Nondeterministic default factories (`uuid4`) are represented by a fixed
placeholder value; no theorem below evaluates such a default. -/
structure FieldSpec where
  name : String
  ann : PyAnn
  default : Option Value
  kicad_no_kw : Bool := false
  kicad_kw_bool : Bool := false
  kicad_kw_bool_empty : Bool := false
  kicad_omits_default : Bool := false
  kicad_bool_yes_no : Bool := false
  kicad_always_quotes : Bool := false

/-- One `KicadExpr` dataclass: Python class name, `kicad_expr_tag_name`,
fields in declaration order, and the version-gate data of the two
top-level document classes (`accepted` is the sole accepted version
string of `check_version`, `versionMsgPre`/`versionMsgPost` the message
around the offending version in the raised `VersionError`). -/
structure RecordSchema where
  pyName : String
  tag : String
  fields : List FieldSpec
  accepted : Option String := none
  versionMsgPre : String := ""
  versionMsgPost : String := ""

/-- The catalog fragment needed by the theorems: Python class name to
schema. -/
def Env := List (String × RecordSchema)

/-- Association-list lookup (Python attribute/dict access). -/
def lookupAssoc {α : Type} (m : List (String × α)) (k : String) : Option α :=
  match m with
  | [] => none
  | (k', v) :: rest => if k' = k then some v else lookupAssoc rest k

/-- Look up a class in the catalog. -/
def envLookup (env : Env) (cls : String) : Option RecordSchema :=
  lookupAssoc env cls

/-! ## Argument splitting (`_split_args`, `src/edea/kicad/base.py:299`) -/

/-- Transcribes `_starts_with_number` from `src/edea/kicad/base.py:349`: the
expression's first element is a string whose first character is a decimal
digit. -/
def _starts_with_number (expr : List SExpr) : Bool :=
  match expr with
  | .atom s _ :: _ =>
    match s.data with
    | c :: _ => c.isDigit
    | [] => false
  | _ => false

/-- The first loop of `_split_args`: collect leading arguments until the
first list element that does not start with a number, and return them
together with the unconsumed remainder. -/
def splitArgsPos : List SExpr → List SExpr × List SExpr
  | [] => ([], [])
  | a :: rest =>
    match a with
    | .list xs =>
      if _starts_with_number xs then
        let (args, rem) := splitArgsPos rest
        (.list xs :: args, rem)
      else ([], .list xs :: rest)
    | .atom s q =>
      let (args, rem) := splitArgsPos rest
      (.atom s q :: args, rem)

/-- The `kwarg_list` construction in `_split_args`: a list element
contributes `(kwarg[0], kwarg[1:])` (with `IndexError` on an empty list),
and a bare atom after the positional arguments contributes
`(atom, ["true"])`. -/
def kwargPairs : List SExpr → Except PyErr (List (SExpr × List SExpr))
  | [] => .ok []
  | .atom s q :: rest =>
    (kwargPairs rest).map fun l => (SExpr.atom s q, [SExpr.atom "true" false]) :: l
  | .list [] :: _ => .error .indexError
  | .list (k :: body) :: rest =>
    (kwargPairs rest).map fun l => (k, body) :: l

/-- Insert one keyword occurrence into the ordered keyword map, collecting
duplicate keys into lists as the dict-building loop of `_split_args`
does. -/
def addKwarg (m : List (String × List (List SExpr))) (k : String)
    (v : List SExpr) : List (String × List (List SExpr)) :=
  if m.any (·.1 = k) then
    m.map fun p => if p.1 = k then (p.1, p.2 ++ [v]) else p
  else m ++ [(k, [v])]

/-- The dict-building loop of `_split_args`. A keyword that is itself a
list is unhashable and raises `TypeError` when used as a dict key. -/
def groupKwargs (m : List (String × List (List SExpr))) :
    List (SExpr × List SExpr) → Except PyErr (List (String × List (List SExpr)))
  | [] => .ok m
  | (.list _, _) :: _ => .error (.typeError "unhashable type: 'list'")
  | (.atom s _, body) :: rest => groupKwargs (addKwarg m s body) rest

/-- Transcribes `_split_args` from `src/edea/kicad/base.py:299`: split an argument
list into leading positional arguments and an ordered keyword map. -/
def _split_args (expr : List SExpr) :
    Except PyErr (List SExpr × List (String × List (List SExpr))) :=
  let (args, rest) := splitArgsPos expr
  match kwargPairs rest with
  | .error e => .error e
  | .ok pairs =>
    match groupKwargs [] pairs with
    | .error e => .error e
    | .ok kwargs => .ok (args, kwargs)

/-! ## Runtime value helpers -/

mutual
/-- Convert a parsed s-expression into the runtime Python value it already
is in Python (atoms are `str`/`QuotedStr` objects, lists are lists); the
conversion is an artifact of the embedding's `SExpr`/`Value` distinction. -/
def sexprToValue : SExpr → Value
  | .atom s q => .vStr s q
  | .list xs => .vList (sexprListToValue xs)

/-- Convert each child of a list node. -/
def sexprListToValue : List SExpr → List Value
  | [] => []
  | x :: xs => sexprToValue x :: sexprListToValue xs
end

/-- Python truthiness of a runtime value (`if value:`). -/
def pyTruthy : Value → Bool
  | .vBool b => b
  | .vNone => false
  | .vStr s _ => s ≠ ""
  | .vInt n => n ≠ 0
  | .vFloat q => q ≠ 0
  | .vList vs => !vs.isEmpty
  | .vTuple vs => !vs.isEmpty
  | .vRec _ _ => true

/-- The numeric content of a value, when Python treats it as a number
(`bool` is an `int` subclass). -/
def asNumber : Value → Option ℚ
  | .vInt n => some (mkRat n 1)
  | .vFloat q => some q
  | .vBool b => some (if b then 1 else 0)
  | _ => none

/-- Elementwise test of two lists under a pairwise predicate; false when
the lengths differ. -/
def allPairs {α β : Type} (p : α → β → Bool) : List α → List β → Bool
  | [], [] => true
  | a :: as, b :: bs => p a b && allPairs p as bs
  | _, _ => false

mutual
/-- Structural equality of runtime values: Python `==`, where dataclass
instances use the `KicadExpr.__eq__` of `src/edea/kicad/base.py:132`,
which compares every schema field with `_equality.fields_equal`. The
`_equality` module itself is not present under `src/`; `fields_equal` is
modelled from the spec (§3): two instances are equal iff every field
compares equal, with numeric fields compared after canonical fixed-point
string normalization (`number_to_str`), not raw float equality. -/
def value_eq (env : Env) : ℕ → Value → Value → Bool
  | 0, _, _ => false
  | fuel + 1, a, b =>
    match a, b with
    | .vRec c1 s1, .vRec c2 s2 =>
      c1 = c2 &&
        (match envLookup env c1 with
         | some sch =>
           sch.fields.all fun f =>
             match lookupAssoc s1 f.name, lookupAssoc s2 f.name with
             | some x, some y => fields_equal env fuel f.ann x y
             | _, _ => false
         | none => false)
    | .vStr x _, .vStr y _ => x = y
    | .vNone, .vNone => true
    | .vList xs, .vList ys => allPairs (value_eq env fuel) xs ys
    | .vTuple xs, .vTuple ys => allPairs (value_eq env fuel) xs ys
    | x, y =>
      match asNumber x, asNumber y with
      | some qx, some qy => qx.num = qy.num ∧ qx.den = qy.den
      | _, _ => false

/-- Modelled from the spec: `_equality.fields_equal` (imported by
`src/edea/kicad/base.py` but missing from `src/`): annotation-directed
field comparison with fixed-point normalization on numeric fields,
recursing through sequence annotations and falling back to plain value
equality elsewhere. -/
def fields_equal (env : Env) : ℕ → PyAnn → Value → Value → Bool
  | 0, _, _, _ => false
  | fuel + 1, ann, a, b =>
    if is_number ann then
      match asNumber a, asNumber b with
      | some qx, some qy => number_to_str qx = number_to_str qy
      | _, _ => value_eq env fuel a b
    else
      match ann with
      | .listA t =>
        match a, b with
        | .vList xs, .vList ys => allPairs (fields_equal env fuel t) xs ys
        | _, _ => value_eq env fuel a b
      | .tupleA ts =>
        match a, b with
        | .vTuple xs, .vTuple ys =>
          decide (xs.length = ys.length) && decide (ts.length = xs.length) &&
            ((List.zip ts (List.zip xs ys)).all fun p =>
              fields_equal env fuel p.1 p.2.1 p.2.2)
        | _, _ => value_eq env fuel a b
      | _ => value_eq env fuel a b
end

/-! ## Python numeric string parsing

The decoder's leaf coercion calls `annotation(value[0][0])`, i.e. Python's
`int(...)` / `float(...)` constructors on the token string, and pydantic's
validators do the same at construction time. `float` accepts scientific
notation (required by the spec for arbitrary-origin files).
-/

/-- Longest leading run of decimal digits, as a number and its length. -/
def takeDigits : List Char → ℕ → ℕ → (ℕ × ℕ × List Char)
  | [], acc, len => (acc, len, [])
  | c :: rest, acc, len =>
    if c.isDigit then takeDigits rest (acc * 10 + (c.toNat - 48)) (len + 1)
    else (acc, len, c :: rest)

/-- Python `int(s)`: optional sign followed by decimal digits (surrounding
whitespace and digit-group underscores are not modelled; no claim uses
them). Returns `none` where Python raises `ValueError`. -/
def str_to_int (s : String) : Option ℤ :=
  let (sgn, rest) : ℤ × List Char :=
    match s.data with
    | '-' :: r => (-1, r)
    | '+' :: r => (1, r)
    | r => (1, r)
  match takeDigits rest 0 0 with
  | (n, len, []) => if len = 0 then none else some (sgn * n)
  | _ => none

/-- Python `float(s)` restricted to finite decimal literals: optional
sign, digits with an optional fraction, optional exponent. Returns `none`
where Python raises `ValueError` (`inf`/`nan` are not modelled; no claim
uses them). -/
def str_to_float (s : String) : Option ℚ :=
  let (sgn, rest) : ℤ × List Char :=
    match s.data with
    | '-' :: r => (-1, r)
    | '+' :: r => (1, r)
    | r => (1, r)
  let (ip, ipLen, rest) := takeDigits rest 0 0
  let (mantissa, fracLen, ipLen, rest) :=
    match rest with
    | '.' :: r =>
      let (fp, fpLen, r') := takeDigits r 0 0
      (ip * 10 ^ fpLen + fp, fpLen, ipLen, r')
    | r => (ip, 0, ipLen, r)
  if ipLen + fracLen = 0 then none
  else
    let readExp : List Char → Option ℤ := fun r =>
      let (esgn, r) : ℤ × List Char :=
        match r with
        | '-' :: r' => (-1, r')
        | '+' :: r' => (1, r')
        | r' => (1, r')
      match takeDigits r 0 0 with
      | (e, eLen, []) => if eLen = 0 then none else some (esgn * e)
      | _ => none
    let finish : ℤ → Option ℚ := fun exp =>
      let e' : ℤ := exp - fracLen
      if 0 ≤ e' then some (mkRat (sgn * mantissa * 10 ^ e'.toNat) 1)
      else some (mkRat (sgn * mantissa) (10 ^ (-e').toNat))
    match rest with
    | [] => finish 0
    | 'e' :: r => (readExp r).bind finish
    | 'E' :: r => (readExp r).bind finish
    | _ => none

/-! ## Construction-time validation

`cls(*parsed_args, **kwargs)` at the end of `KicadExpr.from_list` invokes
the pydantic dataclass constructor. Binding follows Python call semantics
(`TypeError` on a missing required argument, a duplicate value or excess
positional arguments); provided values are then validated/coerced by
pydantic v1. Pydantic is a third-party library whose exact coercions are
modelled here only as far as the catalog needs them: string/number/bool
primitives, `Literal`/`StrEnum` membership, fixed-size tuples, lists,
left-to-right unions. Defaults are not validated
(`PydanticConfig.validate_all = False`, `src/edea/kicad/_config.py`).
`UUID` format validation is not modelled (no claim exercises it).
-/

/-- The truthy strings of pydantic v1's bool validator. -/
def pydanticBoolTrue : List String := ["1", "on", "t", "true", "y", "yes"]

/-- The falsy strings of pydantic v1's bool validator. -/
def pydanticBoolFalse : List String := ["0", "off", "f", "false", "n", "no"]

mutual
/-- Pydantic v1 coercion of one provided value against one annotation;
`ValidationError` on failure. -/
def coerce (env : Env) : ℕ → PyAnn → Value → Except PyErr Value
  | 0, _, _ => .error .recursionError
  | fuel + 1, ann, v =>
    match ann with
    | .strA =>
      match v with
      | .vStr s q => .ok (.vStr s q)
      | .vInt n => .ok (.vStr (toString n) false)
      | .vFloat q => .ok (.vStr (number_to_str q) false)
      | .vBool b => .ok (.vStr (if b then "True" else "False") false)
      | _ => .error (.validationError "str type expected")
    | .intA =>
      match v with
      | .vInt n => .ok (.vInt n)
      | .vBool b => .ok (.vInt (if b then 1 else 0))
      | .vFloat q => .ok (.vInt (q.num / q.den))
      | .vStr s _ =>
        match str_to_int s with
        | some n => .ok (.vInt n)
        | none => .error (.validationError "value is not a valid integer")
      | _ => .error (.validationError "value is not a valid integer")
    | .floatA =>
      match v with
      | .vFloat q => .ok (.vFloat q)
      | .vInt n => .ok (.vFloat (mkRat n 1))
      | .vBool b => .ok (.vFloat (if b then 1 else 0))
      | .vStr s _ =>
        match str_to_float s with
        | some q => .ok (.vFloat q)
        | none => .error (.validationError "value is not a valid float")
      | _ => .error (.validationError "value is not a valid float")
    | .boolA =>
      match v with
      | .vBool b => .ok (.vBool b)
      | .vInt n =>
        if n = 0 then .ok (.vBool false)
        else if n = 1 then .ok (.vBool true)
        else .error (.validationError "value could not be parsed to a boolean")
      | .vStr s _ =>
        if s.toLower ∈ pydanticBoolTrue then .ok (.vBool true)
        else if s.toLower ∈ pydanticBoolFalse then .ok (.vBool false)
        else .error (.validationError "value could not be parsed to a boolean")
      | _ => .error (.validationError "value could not be parsed to a boolean")
    | .uuidA =>
      match v with
      | .vStr s _ => .ok (.vStr s false)
      | _ => .error (.validationError "value is not a valid uuid")
    | .noneA =>
      match v with
      | .vNone => .ok .vNone
      | _ => .error (.validationError "value is not None")
    | .litA vals =>
      let content : Option String :=
        match v with
        | .vStr s _ => some s
        | .vInt n => some (toString n)
        | .vNone => some "None"
        | _ => none
      match content with
      | some s =>
        if s ∈ vals then .ok v
        else .error (.validationError "unexpected value; permitted values differ")
      | none => .error (.validationError "unexpected value; permitted values differ")
    | .enumA vals =>
      match v with
      | .vStr s _ =>
        if s ∈ vals then .ok (.vStr s false)
        else .error (.validationError "value is not a valid enumeration member")
      | _ => .error (.validationError "value is not a valid enumeration member")
    | .recA cls =>
      match v with
      | .vRec c slots =>
        if c = cls then .ok (.vRec c slots)
        else .error (.validationError ("instance of " ++ cls ++ " expected"))
      | _ => .error (.validationError ("instance of " ++ cls ++ " expected"))
    | .listA t =>
      match v with
      | .vList vs => (coerceEach env fuel t vs).map .vList
      | .vTuple vs => (coerceEach env fuel t vs).map .vList
      | _ => .error (.validationError "value is not a valid list")
    | .tupleA ts =>
      match v with
      | .vList vs => (coerceTuple env fuel ts vs).map .vTuple
      | .vTuple vs => (coerceTuple env fuel ts vs).map .vTuple
      | _ => .error (.validationError "value is not a valid tuple")
    | .unionA ts => coerceUnion env fuel ts v
    | .bareA =>
      match v with
      | .vList vs => .ok (.vList vs)
      | .vTuple vs => .ok (.vList vs)
      | _ => .error (.validationError "value is not a valid list")

/-- Coerce every element of a sequence against the element annotation. -/
def coerceEach (env : Env) : ℕ → PyAnn → List Value → Except PyErr (List Value)
  | 0, _, _ => .error .recursionError
  | _ + 1, _, [] => .ok []
  | fuel + 1, t, v :: vs =>
    match coerce env fuel t v with
    | .error e => .error e
    | .ok cv =>
      match coerceEach env fuel t vs with
      | .error e => .error e
      | .ok cvs => .ok (cv :: cvs)

/-- Coerce a fixed-arity tuple elementwise; arity mismatch fails. -/
def coerceTuple (env : Env) : ℕ → List PyAnn → List Value → Except PyErr (List Value)
  | 0, _, _ => .error .recursionError
  | _ + 1, [], [] => .ok []
  | fuel + 1, t :: ts, v :: vs =>
    match coerce env fuel t v with
    | .error e => .error e
    | .ok cv =>
      match coerceTuple env fuel ts vs with
      | .error e => .error e
      | .ok cvs => .ok (cv :: cvs)
  | _ + 1, _, _ => .error (.validationError "wrong tuple length")

/-- Try union members left to right; first success wins. -/
def coerceUnion (env : Env) : ℕ → List PyAnn → Value → Except PyErr Value
  | 0, _, _ => .error .recursionError
  | _ + 1, [], _ => .error (.validationError "no union member matched")
  | fuel + 1, t :: ts, v =>
    match coerce env fuel t v with
    | .ok cv => .ok cv
    | .error _ => coerceUnion env fuel ts v
end

/-- Remove the binding of `k` from an association list. -/
def removeKey {α : Type} (m : List (String × α)) (k : String) : List (String × α) :=
  m.filter (·.1 ≠ k)

/-- Field-by-field binding of `cls(*args, **kwargs)`: positional values
first, then keyword values, then the declared default (unvalidated), and
`TypeError` when a required field is left unbound or bound twice. -/
def constructGo (env : Env) (fuel : ℕ) :
    List FieldSpec → List Value → List (String × Value) →
      Except PyErr (List (String × Value))
  | [], _ :: _, _ => .error (.typeError "too many positional arguments")
  | [], [], kwargs =>
    if kwargs.isEmpty then .ok []
    else .error (.typeError "unexpected keyword argument")
  | f :: fs, v :: posRest, kwargs =>
    if (lookupAssoc kwargs f.name).isSome then
      .error (.typeError ("multiple values for argument " ++ f.name))
    else
      match coerce env fuel f.ann v with
      | .error e => .error e
      | .ok cv =>
        match constructGo env fuel fs posRest kwargs with
        | .error e => .error e
        | .ok rest => .ok ((f.name, cv) :: rest)
  | f :: fs, [], kwargs =>
    match lookupAssoc kwargs f.name with
    | some v =>
      match coerce env fuel f.ann v with
      | .error e => .error e
      | .ok cv =>
        match constructGo env fuel fs [] (removeKey kwargs f.name) with
        | .error e => .error e
        | .ok rest => .ok ((f.name, cv) :: rest)
    | none =>
      match f.default with
      | some d =>
        match constructGo env fuel fs [] kwargs with
        | .error e => .error e
        | .ok rest => .ok ((f.name, d) :: rest)
      | none => .error (.typeError ("missing required argument: " ++ f.name))

/-- Performs `cls(*parsed_args, **kwargs)`: construct a validated instance. -/
def construct (env : Env) (fuel : ℕ) (schema : RecordSchema)
    (posArgs : List Value) (kwargs : List (String × Value)) : Except PyErr Value :=
  (constructGo env fuel schema.fields posArgs kwargs).map (Value.vRec schema.pyName)

/-! ## The decoder (`src/edea/kicad/base.py:233`–`297` and `from_list`) -/

/-- The `value != [[]]` test of the `kicad_kw_bool_empty` branch of
`_parse_field`: the keyword occurrences are exactly one empty body. -/
def isEmptyOcc : List (List SExpr) → Bool
  | [[]] => true
  | _ => false

/-- The `value == [["yes"]]` test of the `kicad_bool_yes_no` branch of
`_parse_field` (Python string equality ignores the `QuotedStr` flag). -/
def isYesOcc : List (List SExpr) → Bool
  | [[.atom s _]] => s = "yes"
  | _ => false

/-- The union-trial loop of `_parse_as` (`src/edea/kicad/base.py:267`):
try members in order, collect caught errors, and re-raise the first
collected error when every member fails; an uncaught exception class
propagates immediately. -/
def unionGo (p : PyAnn → Except PyErr Value) :
    List PyAnn → List PyErr → Except PyErr Value
  | [], e :: _ => .error e
  | [], [] => .error (.exceptionOther "Unknown error with parsing union type")
  | t :: ts, errs =>
    match p t with
    | .ok r => .ok r
    | .error e =>
      if e.isCaughtByUnion then unionGo p ts (errs ++ [e])
      else .error e

/-- Decode every occurrence as the given record type
(`[sub.from_list(e) for e in value]`), `rec_` being the recursive
`from_list`. -/
def parseEachRec (rec_ : RecordSchema → List SExpr → Except PyErr Value)
    (schema : RecordSchema) : List (List SExpr) → Except PyErr (List Value)
  | [] => .ok []
  | e :: es =>
    match rec_ schema e with
    | .error err => .error err
    | .ok v => (parseEachRec rec_ schema es).map (v :: ·)

/-- Transcribes `_parse_as` from `src/edea/kicad/base.py:247`: parse keyword
occurrences as a value of the annotated type. `rec_` is the recursive
`from_list` of nested record types; the fuel drives the structural
recursion through the annotation. -/
def _parse_as (env : Env) (rec_ : RecordSchema → List SExpr → Except PyErr Value) :
    ℕ → PyAnn → List (List SExpr) → Except PyErr Value
  | 0, _, _ => .error .recursionError
  | fuel + 1, ann, value =>
    match ann with
    | .listA sub =>
      match sub with
      | .recA cls =>
        match envLookup env cls with
        | none => .error (.exceptionOther ("unknown class " ++ cls))
        | some schema => (parseEachRec rec_ schema value).map .vList
      | _ =>
        match value with
        | [o] => .ok (.vList (sexprListToValue o))
        | _ => .error (.valueError "Expecting only one item")
    | .recA cls =>
      match envLookup env cls with
      | none => .error (.exceptionOther ("unknown class " ++ cls))
      | some schema =>
        match value with
        | [o] => rec_ schema o
        | _ => .error (.valueError "Expecting only one item")
    | .tupleA _ =>
      match value with
      | [o] => .ok (.vTuple (sexprListToValue o))
      | _ => .error (.valueError "Expecting only one item")
    | .unionA ts => unionGo (fun sub => _parse_as env rec_ fuel sub value) ts []
    | _ =>
      match value with
      | [] => .error .indexError
      | o :: _ =>
        match o with
        | [e] =>
          match ann with
          | .litA _ => .ok (sexprToValue e)
          | .boolA =>
            .ok (.vBool (match e with | .atom s _ => s = "true" | .list _ => false))
          | .strA =>
            match e with
            | .atom s _ => .ok (.vStr s false)
            | .list _ => .error (.exceptionOther "str() of a list is not modelled")
          | .intA =>
            match e with
            | .atom s _ =>
              match str_to_int s with
              | some n => .ok (.vInt n)
              | none => .error (.valueError ("invalid literal for int(): " ++ s))
            | .list _ => .error (.typeError "int() argument must be a string or a number")
          | .floatA =>
            match e with
            | .atom s _ =>
              match str_to_float s with
              | some q => .ok (.vFloat q)
              | none => .error (.valueError ("could not convert string to float: " ++ s))
            | .list _ => .error (.typeError "float() argument must be a string or a number")
          | .uuidA =>
            match e with
            | .atom s _ => .ok (.vStr s false)
            | .list _ => .error (.typeError "one of the hex, bytes arguments must be given")
          | .enumA vals =>
            match e with
            | .atom s _ =>
              if s ∈ vals then .ok (.vStr s false)
              else .error (.valueError (s ++ " is not a valid enumeration member"))
            | .list _ => .error (.valueError "not a valid enumeration member")
          | .noneA => .error (.typeError "NoneType takes no arguments")
          | _ => .error (.exceptionOther "unreachable annotation")
        | _ => .error (.valueError "Expecting only one item")

/-- Transcribes `_parse_field` from `src/edea/kicad/base.py:233`: the boolean grammar
tags take precedence, everything else goes through `_parse_as`. -/
def _parse_field (env : Env) (rec_ : RecordSchema → List SExpr → Except PyErr Value)
    (fuel : ℕ) (f : FieldSpec) (value : List (List SExpr)) : Except PyErr Value :=
  if f.kicad_kw_bool_empty then
    if isEmptyOcc value then .ok (.vBool true)
    else .error (.valueError ("Expecting empty expression for " ++ f.name))
  else if f.kicad_bool_yes_no then .ok (.vBool (isYesOcc value))
  else _parse_as env rec_ fuel f.ann value

/-- The keyword loop of `from_list` (`src/edea/kicad/base.py:76`): in
insertion order, reject a keyword matching no declared field with
`ValueError`, otherwise parse it with `_parse_field`. -/
def kwargsParseLoop (pf : FieldSpec → List (List SExpr) → Except PyErr Value)
    (pyName : String) (fields : List FieldSpec) :
    List (String × List (List SExpr)) → Except PyErr (List (String × Value))
  | [] => .ok []
  | (kw, occs) :: rest =>
    match fields.find? (·.name = kw) with
    | none =>
      .error (.valueError
        ("Encountered unknown field: '" ++ kw ++ "' for '" ++ pyName ++ "'"))
    | some f =>
      match pf f occs with
      | .error e => .error e
      | .ok v => (kwargsParseLoop pf pyName fields rest).map ((kw, v) :: ·)

/-- Does the positional argument list contain a bare atom equal to the
given name (`name in parsed_args`; list elements never equal a string)? -/
def argsContains (args : List SExpr) (name : String) : Bool :=
  args.any fun a =>
    match a with
    | .atom s _ => s = name
    | .list _ => false

/-- Remove the first atom equal to the name (`parsed_args.remove(name)`). -/
def argsRemoveFirst : List SExpr → String → List SExpr
  | [], _ => []
  | .atom s q :: rest, name =>
    if s = name then rest else .atom s q :: argsRemoveFirst rest name
  | .list xs :: rest, name => .list xs :: argsRemoveFirst rest name

/-- Performs `kwargs[name] = True` on the ordered keyword map (dict update keeps
the original position of an existing key). -/
def setKwarg (m : List (String × Value)) (k : String) (v : Value) :
    List (String × Value) :=
  if m.any (·.1 = k) then m.map fun p => if p.1 = k then (p.1, v) else p
  else m ++ [(k, v)]

/-- The `kicad_kw_bool` scan of `from_list` (`src/edea/kicad/base.py:81`):
for every keyword-boolean field whose name appears among the positional
arguments, set the field to `True` and delete the atom. -/
def kwBoolScan : List FieldSpec → List SExpr → List (String × Value) →
    List SExpr × List (String × Value)
  | [], args, kwargs => (args, kwargs)
  | f :: fs, args, kwargs =>
    if f.kicad_kw_bool && argsContains args f.name then
      kwBoolScan fs (argsRemoveFirst args f.name) (setKwarg kwargs f.name (.vBool true))
    else kwBoolScan fs args kwargs

/-- Transcribes the `check_version` of the two top-level document classes
(`Schematic.check_version`, `Pcb.check_version`): a single accepted
version string, `VersionError` otherwise; the base class method raises
`NotImplementedError`. -/
def check_version (cls : RecordSchema) (v : SExpr) : Except PyErr Unit :=
  match cls.accepted with
  | none => .error .notImplementedError
  | some acc =>
    match v with
    | .atom s _ =>
      if s = acc then .ok ()
      else .error (.versionError (cls.versionMsgPre ++ s ++ cls.versionMsgPost))
    | .list _ =>
      .error (.versionError (cls.versionMsgPre ++ "<s-expression>" ++ cls.versionMsgPost))

/-- The guard block of `from_list` (`src/edea/kicad/base.py:65`): only for
the tag names `kicad_sch` and `kicad_pcb`, raise `EOFError` when the
argument list has at most four elements, then check the first element of
the first `version` keyword occurrence, when present. -/
def versionGate (cls : RecordSchema) (expr : List SExpr)
    (kwargs : List (String × List (List SExpr))) : Except PyErr Unit :=
  if cls.tag = "kicad_sch" ∨ cls.tag = "kicad_pcb" then
    if expr.length ≤ 4 then .error (.eofError ("Invalid " ++ cls.tag ++ " file"))
    else
      match lookupAssoc kwargs "version" with
      | none => .ok ()
      | some [] => .error .indexError
      | some ([] :: _) => .error .indexError
      | some ((v :: _) :: _) => check_version cls v
  else .ok ()

/-- Transcribes `KicadExpr.from_list` from `src/edea/kicad/base.py:52`: split the
arguments, run the top-level document guards, parse the keyword groups,
run the keyword-boolean scan, and construct the instance. None of the
classes in the embedded catalog override `_process_args_for_parsing`, so
the hook is the identity. Fuel bounds the recursion into nested record
types. -/
def from_list (env : Env) : ℕ → RecordSchema → List SExpr → Except PyErr Value
  | 0, _, _ => .error .recursionError
  | fuel + 1, cls, expr =>
    match _split_args expr with
    | .error e => .error e
    | .ok (parsed_args, parsed_kwargs) =>
      match versionGate cls expr parsed_kwargs with
      | .error e => .error e
      | .ok () =>
        match kwargsParseLoop
            (fun f occs => _parse_field env (from_list env fuel) fuel f occs)
            cls.pyName cls.fields parsed_kwargs with
        | .error e => .error e
        | .ok kwargs =>
          let (args2, kwargs2) := kwBoolScan cls.fields parsed_args kwargs
          construct env fuel cls (args2.map sexprToValue) kwargs2

/-! ## The encoder (`src/edea/kicad/base.py:89`–`230`) -/

/-- Transcribes `_value_to_str` from `src/edea/kicad/base.py:221`: render a leaf
value, as a `QuotedStr` when the field carries `kicad_always_quotes`.
Numbers go through `number_to_str`, booleans render `true`/`false`,
everything else through `str(...)` (`str()` of container values other
than the empty list is outside the modelled fragment; no catalog field
reaches it). -/
def _value_to_str (ann : PyAnn) (v : Value) (in_quotes : Bool) :
    Except PyErr SExpr :=
  if is_number ann then
    match asNumber v with
    | some q => .ok (.atom (number_to_str q) in_quotes)
    | none => .error (.typeError "unsupported format string passed")
  else
    match ann with
    | .boolA => .ok (.atom (if pyTruthy v then "true" else "false") in_quotes)
    | _ =>
      match v with
      | .vStr s _ => .ok (.atom s in_quotes)
      | .vInt n => .ok (.atom (toString n) in_quotes)
      | .vFloat q => .ok (.atom (number_to_str q) in_quotes)
      | .vBool b => .ok (.atom (if b then "True" else "False") in_quotes)
      | .vNone => .ok (.atom "None" in_quotes)
      | .vList [] => .ok (.atom "[]" in_quotes)
      | _ => .error (.exceptionOther "str() of a container is not modelled")

mutual
/-- Transcribes `get_full_seq_type` from `_type_utils.py` (the variant shipped in
`src/edea/types/_type_utils.py`; `edea.kicad._type_utils` is imported by
`base.py` with the same definition): reconstruct the full annotation of a
runtime tuple/list; an empty list yields the bare `list` type. -/
def get_full_seq_type : Value → PyAnn
  | .vTuple vs => .tupleA (getSeqTypes vs)
  | .vList [] => .bareA
  | .vList (v :: _) => .listA (getElemType v)
  | .vStr _ _ => .strA
  | .vInt _ => .intA
  | .vFloat _ => .floatA
  | .vBool _ => .boolA
  | .vNone => .noneA
  | .vRec cls _ => .recA cls

/-- The element branch of `get_full_seq_type`: `type(v)`, recursing for
tuples and lists. -/
def getElemType : Value → PyAnn
  | .vTuple vs => .tupleA (getSeqTypes vs)
  | .vList [] => .bareA
  | .vList (v :: _) => .listA (getElemType v)
  | .vStr _ _ => .strA
  | .vInt _ => .intA
  | .vFloat _ => .floatA
  | .vBool _ => .boolA
  | .vNone => .noneA
  | .vRec cls _ => .recA cls

/-- The tuple branch of `get_full_seq_type`, one annotation per element. -/
def getSeqTypes : List Value → List PyAnn
  | [] => []
  | v :: vs => getElemType v :: getSeqTypes vs
end

/-- The tuple loop of `_serialize_as`: `value[i]` for each sub-type, so a
too-short runtime tuple raises `IndexError` and extra elements are
ignored. -/
def serializeTupleGo : List PyAnn → List Value → Bool → Except PyErr (List SExpr)
  | [], _, _ => .ok []
  | _ :: _, [], _ => .error .indexError
  | t :: ts, v :: vs, q =>
    match _value_to_str t v q with
    | .error e => .error e
    | .ok s => (serializeTupleGo ts vs q).map (s :: ·)

/-- Is the annotation's origin `tuple`, `list` or a union (the
`sub_origin` test inside the list branch of `_serialize_as`)? -/
def isSeqOrigin : PyAnn → Bool
  | .tupleA _ => true
  | .listA _ => true
  | .unionA _ => true
  | _ => false

/-- The leaf-sequence branch of the list case of `_serialize_as`: each
element renders to one leaf. -/
def serializeLeafSeqGo (sub : PyAnn) : List Value → Bool → Except PyErr (List SExpr)
  | [], _ => .ok []
  | v :: vs, in_quotes =>
    match _value_to_str sub v in_quotes with
    | .error e => .error e
    | .ok s => (serializeLeafSeqGo sub vs in_quotes).map (s :: ·)

mutual
/-- Transcribes `_serialize_as` from `src/edea/kicad/base.py:192`: serialize one value
under one annotation. `rec_` is the recursive `to_list` used for nested
record instances (Python dispatches on the runtime value). -/
def _serialize_as (env : Env) (rec_ : Value → Except PyErr (List SExpr)) :
    ℕ → PyAnn → Value → Bool → Except PyErr (List SExpr)
  | 0, _, _, _ => .error .recursionError
  | fuel + 1, ann, v, in_quotes =>
    match ann with
    | .recA _ => rec_ v
    | .tupleA ts =>
      match v with
      | .vTuple vs => serializeTupleGo ts vs in_quotes
      | .vList vs => serializeTupleGo ts vs in_quotes
      | _ => .error (.typeError "value is not subscriptable")
    | .listA sub =>
      if isSeqOrigin sub then
        match v with
        | .vList vs => serializeSeqGo env rec_ fuel sub vs in_quotes
        | .vTuple vs => serializeSeqGo env rec_ fuel sub vs in_quotes
        | _ => .error (.typeError "value is not iterable")
      else
        match v with
        | .vList vs => serializeLeafSeqGo sub vs in_quotes
        | .vTuple vs => serializeLeafSeqGo sub vs in_quotes
        | _ => .error (.typeError "value is not iterable")
    | .unionA _ => _serialize_as env rec_ fuel (get_full_seq_type v) v in_quotes
    | _ => (_value_to_str ann v in_quotes).map ([·])

/-- The nested-sequence branch of the list case of `_serialize_as`: each
element serializes to its own sub-list. -/
def serializeSeqGo (env : Env) (rec_ : Value → Except PyErr (List SExpr)) :
    ℕ → PyAnn → List Value → Bool → Except PyErr (List SExpr)
  | 0, _, _, _ => .error .recursionError
  | _ + 1, _, [], _ => .ok []
  | fuel + 1, sub, v :: vs, in_quotes =>
    match _serialize_as env rec_ fuel sub v in_quotes with
    | .error e => .error e
    | .ok l => (serializeSeqGo env rec_ fuel sub vs in_quotes).map (.list l :: ·)
end

/-- The `list[KicadExpr]` branch of `_serialize_field`: one sub-list per
element, each tagged with the field name. -/
def serializeRecList (rec_ : Value → Except PyErr (List SExpr)) (name : String) :
    List Value → Except PyErr (List SExpr)
  | [] => .ok []
  | v :: vs =>
    match rec_ v with
    | .error e => .error e
    | .ok body => (serializeRecList rec_ name vs).map (.list (.atom name false :: body) :: ·)

/-- Transcribes `_serialize_field` from `src/edea/kicad/base.py:147`: serialize one
field of an instance, honouring the grammar tags in the source's order:
skip the tag-name pseudo-field and `None` values, omit default values of
`kicad_omits_default` fields, then the positional/boolean encodings, then
the `list[KicadExpr]` special case, then the generic keyword form. -/
def _serialize_field (env : Env) (rec_ : Value → Except PyErr (List SExpr))
    (fuel : ℕ) (f : FieldSpec) (v : Value) : Except PyErr (List SExpr) :=
  if f.name = "kicad_expr_tag_name" then .ok []
  else
    match v with
    | .vNone => .ok []
    | _ =>
      let omitted :=
        f.kicad_omits_default &&
          (match f.default with
           | some d => value_eq env fuel v d
           | none => false)
      if omitted then .ok []
      else
        let in_quotes := f.kicad_always_quotes
        if f.kicad_no_kw then (_value_to_str f.ann v in_quotes).map ([·])
        else if f.kicad_kw_bool_empty then
          .ok (if pyTruthy v then [.list [.atom f.name false]] else [])
        else if f.kicad_kw_bool then
          .ok (if pyTruthy v then [.atom f.name false] else [])
        else if f.kicad_bool_yes_no then
          .ok [.list [.atom f.name false, .atom (if pyTruthy v then "yes" else "no") false]]
        else
          match f.ann with
          | .listA (.recA _) =>
            match v with
            | .vList [] => .ok []
            | .vList vs => serializeRecList rec_ f.name vs
            | .vTuple vs => serializeRecList rec_ f.name vs
            | _ => .error (.typeError "value is not iterable")
          | _ =>
            match _serialize_as env rec_ fuel f.ann v in_quotes with
            | .error e => .error e
            | .ok body => .ok [.list (.atom f.name false :: body)]

/-- The field loop of `KicadExpr.to_list` (`src/edea/kicad/base.py:94`). -/
def serializeFieldsGo (env : Env) (rec_ : Value → Except PyErr (List SExpr))
    (fuel : ℕ) : List FieldSpec → List (String × Value) → Except PyErr (List SExpr)
  | [], _ => .ok []
  | f :: fs, slots =>
    match lookupAssoc slots f.name with
    | none => .error (.exceptionOther ("missing attribute " ++ f.name))
    | some v =>
      match _serialize_field env rec_ fuel f v with
      | .error e => .error e
      | .ok part => (serializeFieldsGo env rec_ fuel fs slots).map (part ++ ·)

/-- Transcribes `KicadExpr.to_list` from `src/edea/kicad/base.py:89`: serialize every
field of the instance in declaration order and concatenate. None of the
classes in the embedded catalog define a `@custom_serializer` or override
`_process_fields_for_serialization` (the only custom serializer in the
repository is on `Pcb.layers`), so the hooks are identities. -/
def to_list (env : Env) : ℕ → Value → Except PyErr (List SExpr)
  | 0, _ => .error .recursionError
  | fuel + 1, v =>
    match v with
    | .vRec cls slots =>
      match envLookup env cls with
      | none => .error (.exceptionOther ("unknown class " ++ cls))
      | some schema => serializeFieldsGo env (to_list env fuel) fuel schema.fields slots
    | _ => .error (.typeError "to_list of a non-record value")

/-! ## Concrete schemas from the catalog

`Footprint3dModel` and the `FootprintModelCoord` family are transcribed
from `src/edea/kicad/pcb/footprint.py:339`–`377`; `Schematic` from
`src/edea/kicad/schematic/schematic.py:322`–`365`. Defaults produced by a
`default_factory` are the fully-default instances the factory builds
(`PydanticConfig.validate_all = False`, so defaults are never validated);
the nondeterministic `uuid4` factory is represented by the nil UUID
placeholder, and no theorem below evaluates it.
-/

/-- The single field of `FootprintModelCoord`
(`src/edea/kicad/pcb/footprint.py:340`). -/
def xyzField : FieldSpec :=
  { name := "xyz", ann := .tupleA [.floatA, .floatA, .floatA],
    default := some (.vTuple [.vFloat 0, .vFloat 0, .vFloat 0]) }

/-- The `kicad_expr_tag_name` pseudo-field declared by a class that
overrides its tag name. -/
def tagNameField (tag : String) : FieldSpec :=
  { name := "kicad_expr_tag_name", ann := .litA [tag],
    default := some (.vStr tag false) }

/-- Transcribes `FootprintModelOffset` (`src/edea/kicad/pcb/footprint.py:344`). -/
def footprintModelOffset : RecordSchema :=
  { pyName := "FootprintModelOffset", tag := "offset",
    fields := [xyzField, tagNameField "offset"] }

/-- Transcribes `FootprintModelScale` (`src/edea/kicad/pcb/footprint.py:348`). -/
def footprintModelScale : RecordSchema :=
  { pyName := "FootprintModelScale", tag := "scale",
    fields := [xyzField, tagNameField "scale"] }

/-- Transcribes `FootprintModelRotate` (`src/edea/kicad/pcb/footprint.py:352`). -/
def footprintModelRotate : RecordSchema :=
  { pyName := "FootprintModelRotate", tag := "rotate",
    fields := [xyzField, tagNameField "rotate"] }

/-- The fully-default `FootprintModelCoord` subclass instance built by the
`default_factory` of the `offset`/`scale`/`rotate` fields. -/
def modelCoordDefault (cls tag : String) : Value :=
  .vRec cls [("xyz", .vTuple [.vFloat 0, .vFloat 0, .vFloat 0]),
             ("kicad_expr_tag_name", .vStr tag false)]

/-- Transcribes `Footprint3dModel` (`src/edea/kicad/pcb/footprint.py:360`): a
positional always-quoted `file` string, a `hide` keyword boolean, an
optional `opacity` float, three omitted-when-default nested coordinate
records, and the `model` tag name. -/
def footprint3dModel : RecordSchema :=
  { pyName := "Footprint3dModel", tag := "model",
    fields :=
      [{ name := "file", ann := .strA, default := none,
         kicad_no_kw := true, kicad_always_quotes := true },
       { name := "hide", ann := .boolA, default := some (.vBool false),
         kicad_kw_bool := true },
       { name := "opacity", ann := .unionA [.floatA, .noneA], default := some .vNone },
       { name := "offset", ann := .recA "FootprintModelOffset",
         default := some (modelCoordDefault "FootprintModelOffset" "offset"),
         kicad_omits_default := true },
       { name := "scale", ann := .recA "FootprintModelScale",
         default := some (modelCoordDefault "FootprintModelScale" "scale"),
         kicad_omits_default := true },
       { name := "rotate", ann := .recA "FootprintModelRotate",
         default := some (modelCoordDefault "FootprintModelRotate" "rotate"),
         kicad_omits_default := true },
       tagNameField "model"] }

/-- The nil-UUID placeholder standing in for the nondeterministic `uuid4`
default factory (never evaluated by any theorem). -/
def uuidPlaceholder : Value := .vStr "00000000-0000-0000-0000-000000000000" false

/-- The fully-default `PaperStandard()` built by the `paper` field's
factory (`src/edea/kicad/common.py:67`): A4, landscape (the
`PaperOrientation.LANDSCAPE` member value is the empty string). -/
def paperStandardDefault : Value :=
  .vRec "PaperStandard"
    [("format", .vStr "A4" false), ("orientation", .vStr "" false),
     ("kicad_expr_tag_name", .vStr "paper" false)]

/-- Transcribes `Schematic` (`src/edea/kicad/schematic/schematic.py:322`): the
top-level schematic document class, tag `kicad_sch`, with its
`check_version` accepting exactly `"20230121"`. -/
def schematic : RecordSchema :=
  { pyName := "Schematic", tag := "kicad_sch",
    accepted := some "20230121",
    versionMsgPre :=
      "Only the stable KiCad 7 schematic file format i.e. '20230121' is supported. Got '",
    versionMsgPost := "'. Please open and re-save the file with KiCad 7 if you can.",
    fields :=
      [{ name := "version", ann := .litA ["20230121"],
         default := some (.vStr "20230121" false) },
       { name := "generator", ann := .strA, default := some (.vStr "edea" false) },
       { name := "uuid", ann := .uuidA, default := some uuidPlaceholder },
       { name := "paper", ann := .unionA [.recA "PaperUser", .recA "PaperStandard"],
         default := some paperStandardDefault },
       { name := "title_block", ann := .unionA [.recA "TitleBlock", .noneA],
         default := some .vNone },
       { name := "lib_symbols", ann := .recA "LibSymbols",
         default := some (.vRec "LibSymbols" [("symbol", .vList [])]) },
       { name := "arc", ann := .listA (.recA "ArcTopLevel"), default := some (.vList []) },
       { name := "circle", ann := .listA (.recA "CircleTopLevel"),
         default := some (.vList []) },
       { name := "sheet", ann := .listA (.recA "Sheet"), default := some (.vList []) },
       { name := "symbol", ann := .listA (.recA "SymbolUse"), default := some (.vList []) },
       { name := "rectangle", ann := .listA (.recA "RectangleTopLevel"),
         default := some (.vList []) },
       { name := "wire", ann := .listA (.recA "Wire"), default := some (.vList []) },
       { name := "polyline", ann := .listA (.recA "PolylineTopLevel"),
         default := some (.vList []) },
       { name := "bus", ann := .listA (.recA "Bus"), default := some (.vList []) },
       { name := "image", ann := .listA (.recA "Image"), default := some (.vList []) },
       { name := "junction", ann := .listA (.recA "Junction"),
         default := some (.vList []) },
       { name := "no_connect", ann := .listA (.recA "NoConnect"),
         default := some (.vList []) },
       { name := "bus_entry", ann := .listA (.recA "BusEntry"),
         default := some (.vList []) },
       { name := "text", ann := .listA (.recA "Text"), default := some (.vList []) },
       { name := "text_box", ann := .listA (.recA "TextBox"),
         default := some (.vList []) },
       { name := "label", ann := .listA (.recA "LocalLabel"),
         default := some (.vList []) },
       { name := "hierarchical_label", ann := .listA (.recA "HierarchicalLabel"),
         default := some (.vList []) },
       { name := "global_label", ann := .listA (.recA "GlobalLabel"),
         default := some (.vList []) },
       { name := "netclass_flag", ann := .listA (.recA "NetclassFlag"),
         default := some (.vList []) },
       { name := "bus_alias", ann := .listA (.recA "BusAlias"),
         default := some (.vList []) },
       { name := "sheet_instances", ann := .unionA [.recA "SheetInstances", .noneA],
         default := some .vNone },
       { name := "symbol_instances", ann := .recA "SymbolInstances",
         default := some (.vRec "SymbolInstances" [("path", .vList [])]),
         kicad_omits_default := true },
       tagNameField "kicad_sch"] }

/-- The catalog fragment used by the theorems. -/
def theEnv : Env :=
  [("Footprint3dModel", footprint3dModel),
   ("FootprintModelOffset", footprintModelOffset),
   ("FootprintModelScale", footprintModelScale),
   ("FootprintModelRotate", footprintModelRotate),
   ("Schematic", schematic)]

/-- A structurally valid `Footprint3dModel` instance whose `file` string
happens to be the word `hide`: `Footprint3dModel(file="hide")`. -/
def modelFileHide : Value :=
  .vRec "Footprint3dModel"
    [("file", .vStr "hide" false),
     ("hide", .vBool false),
     ("opacity", .vNone),
     ("offset", modelCoordDefault "FootprintModelOffset" "offset"),
     ("scale", modelCoordDefault "FootprintModelScale" "scale"),
     ("rotate", modelCoordDefault "FootprintModelRotate" "rotate"),
     ("kicad_expr_tag_name", .vStr "model" false)]

/-- The `in_bom` field of `SymbolUse`
(`src/edea/kicad/schematic/schematic.py:77`), a `kicad_bool_yes_no`
boolean. -/
def inBomField : FieldSpec :=
  { name := "in_bom", ann := .boolA, default := some (.vBool true),
    kicad_bool_yes_no := true }

/-- The spec-side reading of the claim's exception condition requires the
leading list's first element to be *a bare integer* (followed by known
layer atoms). This predicate is the bare-integer part alone; the full
condition only narrows it further, so failing this predicate refutes the
full condition. -/
def isBareInteger (s : String) : Bool :=
  !s.isEmpty && s.data.all (·.isDigit)

/-- The element test performed by the splitting loop of `_split_args`:
keep scanning past atoms and past list elements that start with a number
(`_starts_with_number` checks only that the first character of the first
element is a digit). -/
def splitKeep : SExpr → Bool
  | .atom _ _ => true
  | .list xs => _starts_with_number xs

/-! ## Claim theorems -/

/-- C1: the decode/encode round-trip identity fails on the catalog.
`Footprint3dModel(file="hide")` is structurally valid, `to_list` encodes
it as the single (quoted) atom `hide`, and `from_list` of that encoding
does not return the instance: the keyword-boolean scan consumes the atom
as the `hide` flag (Python string equality ignores the `QuotedStr`
marker), leaving the required `file` field unbound, so construction
raises `TypeError` instead of reproducing the instance. -/
theorem C1_round_trip_fails :
    to_list theEnv 10 modelFileHide = .ok [.atom "hide" true] ∧
    from_list theEnv 10 footprint3dModel [.atom "hide" true] =
      .error (.typeError "missing required argument: file") :=
  ⟨rfl, rfl⟩

/-- C7: the printer ignores the always-quote flag. The atom `abc` carries
the `QuotedStr` marker and contains no special character, yet
`from_list_to_str` emits it bare, not wrapped in quotes. -/
theorem C7_always_quote_flag_ignored :
    from_list_to_str (.atom "abc" true) = "abc" ∧
    ("abc".data.any (· ∈ _special_chars)) = false :=
  ⟨rfl, rfl⟩

/-- C8 counterexample: the input `(a))` has unmatched parentheses (one
opening token, two closing tokens), yet `from_str_to_list` returns the
tree of `(a)` — the token after the first complete expression is never
examined — contradicting the claim that the tokenizer always fails on
unmatched parentheses. -/
theorem C8_counterexample :
    from_str_to_list "(a))" = .ok [.atom "a" false] ∧
    (tokenize "(a))").count "(" = 1 ∧ (tokenize "(a))").count ")" = 2 :=
  ⟨rfl, by decide, by decide⟩

/-- C8 amended: the tokenizer/parser fails only on defects within the
first expression: a stray closing parenthesis as the first token raises
`SyntaxError`, empty input raises `EOFError`, an opening parenthesis that
is never closed raises `IndexError` (not a `SyntaxError`), and trailing
unmatched parentheses after a complete first expression are ignored. -/
theorem C8_tokenizer_failures :
    (∀ text rest, tokenize text = ")" :: rest →
      from_str_to_list text = .error (.syntaxError "unexpected )")) ∧
    from_str_to_list "" = .error (.eofError "unexpected EOF") ∧
    from_str_to_list "(a" = .error .indexError ∧
    from_str_to_list "(" = .error .indexError ∧
    from_str_to_list "(a))" = .ok [.atom "a" false] := by
  refine ⟨?_, rfl, rfl, rfl, rfl⟩
  intro text rest h
  unfold from_str_to_list
  rw [h]
  rfl

/-- C8 witness for the general conjunct, at the input `") x"`. -/
theorem C8_tokenizer_failures_witness :
    from_str_to_list ") x" = .error (.syntaxError "unexpected )") :=
  C8_tokenizer_failures.1 ") x" ["x"] (by decide)

/-- C9 counterexample: `Schematic.from_list([[]])` has a one-element
argument list, but it raises `IndexError` (inside `_split_args`, on the
empty keyword group), not the claimed `EOFError`: splitting precedes the
minimum-size guard, so the guard does not fire "regardless of whether
those elements would otherwise be valid". -/
theorem C9_counterexample :
    from_list theEnv 10 schematic [.list []] = .error .indexError ∧
    ∀ m, (PyErr.indexError : PyErr) ≠ .eofError m :=
  ⟨rfl, fun _ h => PyErr.noConfusion h⟩

/-- C9 amended: for the two top-level tag names, whenever argument
splitting succeeds and the argument list has at most four elements,
`from_list` raises `EOFError` before any field is decoded (the error does
not depend on the fields), and the guard applies only to those two tag
names: a one-element argument list decodes successfully for the `model`
tag. -/
theorem C9_min_size_guard :
    (∀ (env : Env) (fuel : ℕ) (cls : RecordSchema) (expr args kwargs),
      (cls.tag = "kicad_sch" ∨ cls.tag = "kicad_pcb") →
      _split_args expr = .ok (args, kwargs) →
      expr.length ≤ 4 →
      from_list env (fuel + 1) cls expr =
        .error (.eofError ("Invalid " ++ cls.tag ++ " file"))) ∧
    from_list theEnv 10 footprint3dModel [.atom "f" true] =
      .ok (.vRec "Footprint3dModel"
        [("file", .vStr "f" true),
         ("hide", .vBool false),
         ("opacity", .vNone),
         ("offset", modelCoordDefault "FootprintModelOffset" "offset"),
         ("scale", modelCoordDefault "FootprintModelScale" "scale"),
         ("rotate", modelCoordDefault "FootprintModelRotate" "rotate"),
         ("kicad_expr_tag_name", .vStr "model" false)]) := by
  refine ⟨?_, rfl⟩
  intro env fuel cls expr args kwargs htag hsplit hlen
  have hgate : versionGate cls expr kwargs =
      .error (.eofError ("Invalid " ++ cls.tag ++ " file")) := by
    unfold versionGate
    rw [if_pos htag, if_pos hlen]
  unfold from_list
  rw [hsplit]
  show (match versionGate cls expr kwargs with
    | .error e => Except.error e
    | .ok () => _) = _
  rw [hgate]

/-- C9 witness for the general conjunct: a one-element `kicad_sch`
argument list whose splitting succeeds raises the `EOFError`. -/
theorem C9_min_size_guard_witness :
    from_list theEnv 10 schematic [.atom "a" false] =
      .error (.eofError "Invalid kicad_sch file") :=
  C9_min_size_guard.1 theEnv 9 schematic [.atom "a" false] [.atom "a" false] []
    (Or.inl rfl) rfl (by decide)

/-- C10: a `kicad_bool_yes_no` field decodes without ever raising: the
result is `True` exactly when the keyword occurrences are the single
occurrence `[["yes"]]` (the quote flag of the atom is irrelevant), and
`False` on every other body — `no`, unrecognized atoms, extra children,
duplicate occurrences. -/
theorem C10_yes_no_boolean (env : Env)
    (rec_ : RecordSchema → List SExpr → Except PyErr Value) (fuel : ℕ)
    (f : FieldSpec) (value : List (List SExpr))
    (hyes : f.kicad_bool_yes_no = true)
    (hempty : f.kicad_kw_bool_empty = false) :
    _parse_field env rec_ fuel f value = .ok (.vBool (isYesOcc value)) ∧
    (isYesOcc value = true ↔ ∃ q, value = [[.atom "yes" q]]) := by
  constructor
  · unfold _parse_field
    rw [hempty, hyes]
    simp
  · constructor
    · intro h
      match value, h with
      | [[.atom s q]], h =>
        have hs : s = "yes" := by
          by_contra hne
          simp [isYesOcc, hne] at h
        exact ⟨q, by rw [hs]⟩
    · rintro ⟨q, rfl⟩
      rfl

/-- C10 witness: the `in_bom` field at the body `[["no"]]` decodes to
`False` without error. -/
theorem C10_yes_no_boolean_witness :
    _parse_field theEnv (fun _ _ => .error .recursionError) 5 inBomField
        [[.atom "no" false]] = .ok (.vBool false) ∧
    (isYesOcc [[.atom "no" false]] = true ↔
      ∃ q, [[SExpr.atom "no" false]] = [[.atom "yes" q]]) :=
  C10_yes_no_boolean theEnv (fun _ _ => .error .recursionError) 5 inBomField
    [[.atom "no" false]] rfl rfl

/-- C6 counterexample: the leading list `("5x" "y")` is kept as a
positional argument by `_split_args` although `5x` is not a bare integer
(and is followed by no layer atoms): the code's exception tests only the
first character, not the claim's condition. Under the claim this element
would have started the keyword arguments. -/
theorem C6_counterexample :
    _split_args [.list [.atom "5x" false, .atom "y" false]] =
      .ok ([.list [.atom "5x" false, .atom "y" false]], []) ∧
    isBareInteger "5x" = false :=
  ⟨rfl, by decide⟩

/-- C6 amended: `_split_args` takes as positional arguments exactly the
longest prefix of elements that are atoms or lists whose first element
is a string starting with a decimal digit; the first list element
failing that test starts the keyword arguments, and every list element
kept in the positional run starts with a digit. -/
theorem C6_split_boundary (expr : List SExpr) (args : List SExpr)
    (kwargs : List (String × List (List SExpr)))
    (h : _split_args expr = .ok (args, kwargs)) :
    args = expr.takeWhile splitKeep ∧
    ∀ xs, SExpr.list xs ∈ args → _starts_with_number xs = true := by
  have hpos : ∀ e : List SExpr,
      splitArgsPos e = (e.takeWhile splitKeep, e.dropWhile splitKeep) := by
    intro e
    induction e with
    | nil => rfl
    | cons a rest ih =>
      match a with
      | .atom s q =>
        simp [splitArgsPos, List.takeWhile, List.dropWhile, splitKeep, ih]
      | .list xs =>
        by_cases hn : _starts_with_number xs = true
        · simp [splitArgsPos, List.takeWhile, List.dropWhile, splitKeep, hn, ih]
        · simp only [Bool.not_eq_true] at hn
          simp [splitArgsPos, List.takeWhile, List.dropWhile, splitKeep, hn]
  have hargs : args = expr.takeWhile splitKeep := by
    unfold _split_args at h
    rw [hpos expr] at h
    dsimp only at h
    cases hkp : kwargPairs (List.dropWhile splitKeep expr) with
    | error e => rw [hkp] at h; exact absurd h (by simp)
    | ok pairs =>
      rw [hkp] at h
      dsimp only at h
      cases hg : groupKwargs [] pairs with
      | error e => rw [hg] at h; exact absurd h (by simp)
      | ok m =>
        rw [hg] at h
        simp only [Except.ok.injEq, Prod.mk.injEq] at h
        exact h.1.symm
  refine ⟨hargs, ?_⟩
  intro xs hmem
  rw [hargs] at hmem
  have hk := List.mem_takeWhile_imp hmem
  simpa [splitKeep] using hk

/-- C6 witness: at `[a ("5x")]` the positional run is the whole list (the
digit-led list is kept), matching the takeWhile characterization. -/
theorem C6_split_boundary_witness :
    ([SExpr.atom "a" false, SExpr.list [.atom "5x" false]] :
        List SExpr).takeWhile splitKeep =
      [SExpr.atom "a" false, SExpr.list [.atom "5x" false]] ∧
    ∀ xs, SExpr.list xs ∈ [SExpr.atom "a" false, SExpr.list [.atom "5x" false]] →
      _starts_with_number xs = true := by
  have h := C6_split_boundary
    [SExpr.atom "a" false, SExpr.list [.atom "5x" false]]
    [SExpr.atom "a" false, SExpr.list [.atom "5x" false]] [] rfl
  exact ⟨h.1.symm, h.2⟩

/-- C3 counterexample: the `Schematic` argument list
`[("unknown_field" "x")]` contains a keyword group matching no declared
field, yet decoding fails with `EOFError` (the minimum-size guard fires
first), which is not a `ValueError`-class error, contradicting "always
fails with a SchemaMismatch-class error (ValueError)". -/
theorem C3_counterexample :
    from_list theEnv 10 schematic
        [.list [.atom "unknown_field" false, .atom "x" false]] =
      .error (.eofError "Invalid kicad_sch file") ∧
    (PyErr.eofError "Invalid kicad_sch file").isValueErrorClass = false :=
  ⟨rfl, rfl⟩

/-- When every field's name differs from `k`, `find?` cannot find it. -/
theorem find_name_eq_none (fields : List FieldSpec) (k : String)
    (h : ∀ f ∈ fields, f.name ≠ k) : fields.find? (·.name = k) = none := by
  rw [List.find?_eq_none]
  intro f hf
  simpa using h f hf

/-- The keyword loop fails (with some error) whenever the ordered keyword
map binds a name matching no declared field. -/
theorem kwargsParseLoop_unknown
    (pf : FieldSpec → List (List SExpr) → Except PyErr Value)
    (nm : String) (fields : List FieldSpec)
    (kwargs : List (String × List (List SExpr))) (k : String)
    (occs : List (List SExpr))
    (hmem : lookupAssoc kwargs k = some occs)
    (hunk : fields.find? (·.name = k) = none) :
    ∃ e, kwargsParseLoop pf nm fields kwargs = .error e := by
  induction kwargs with
  | nil => simp [lookupAssoc] at hmem
  | cons p rest ih =>
    obtain ⟨k', o'⟩ := p
    by_cases hk : k' = k
    · subst hk
      refine ⟨.valueError
        ("Encountered unknown field: '" ++ k' ++ "' for '" ++ nm ++ "'"), ?_⟩
      unfold kwargsParseLoop
      rw [hunk]
    · have hmem' : lookupAssoc rest k = some occs := by
        unfold lookupAssoc at hmem
        rw [if_neg hk] at hmem
        exact hmem
      obtain ⟨e, he⟩ := ih hmem'
      cases hf : fields.find? (·.name = k') with
      | none =>
        refine ⟨.valueError
          ("Encountered unknown field: '" ++ k' ++ "' for '" ++ nm ++ "'"), ?_⟩
        unfold kwargsParseLoop
        rw [hf]
      | some f =>
        cases hp : pf f o' with
        | error e' =>
          refine ⟨e', ?_⟩
          unfold kwargsParseLoop
          rw [hf]
          dsimp only
          rw [hp]
        | ok v =>
          refine ⟨e, ?_⟩
          unfold kwargsParseLoop
          rw [hf]
          dsimp only
          rw [hp]
          dsimp only
          rw [he]
          rfl

/-- C3 amended: an argument list containing a keyword group whose tag
matches no declared field never decodes successfully — `from_list`
always fails — and the failure is the unknown-field `ValueError` when the
unknown group is the first keyword group of a non-top-level record type;
for `kicad_sch`/`kicad_pcb` an earlier guard (`EOFError`, version check)
or an earlier field's parse error can preempt it with a different error
class. -/
theorem C3_unknown_field_rejected (env : Env) (fuel : ℕ)
    (cls : RecordSchema) (expr : List SExpr) (args : List SExpr)
    (kwargs : List (String × List (List SExpr))) (k : String)
    (occs : List (List SExpr))
    (hsplit : _split_args expr = .ok (args, kwargs))
    (hmem : lookupAssoc kwargs k = some occs)
    (hunknown : ∀ f ∈ cls.fields, f.name ≠ k) :
    (∃ e, from_list env (fuel + 1) cls expr = .error e) ∧
    (cls.tag ≠ "kicad_sch" → cls.tag ≠ "kicad_pcb" →
      ∀ rest, kwargs = (k, occs) :: rest →
        from_list env (fuel + 1) cls expr =
          .error (.valueError
            ("Encountered unknown field: '" ++ k ++ "' for '" ++ cls.pyName ++ "'"))) := by
  have hfind := find_name_eq_none cls.fields k hunknown
  constructor
  · cases hg : versionGate cls expr kwargs with
    | error e =>
      refine ⟨e, ?_⟩
      unfold from_list
      rw [hsplit]
      show (match versionGate cls expr kwargs with
        | .error e => Except.error e
        | .ok () => _) = _
      rw [hg]
    | ok u =>
      obtain ⟨e, he⟩ := kwargsParseLoop_unknown
        (fun f occs => _parse_field env (from_list env fuel) fuel f occs)
        cls.pyName cls.fields kwargs k occs hmem hfind
      refine ⟨e, ?_⟩
      unfold from_list
      rw [hsplit]
      show (match versionGate cls expr kwargs with
        | .error e => Except.error e
        | .ok () => _) = _
      rw [hg]
      show (match kwargsParseLoop
          (fun f occs => _parse_field env (from_list env fuel) fuel f occs)
          cls.pyName cls.fields kwargs with
        | .error e => Except.error e
        | .ok kw => _) = _
      rw [he]
  · intro h1 h2 rest hkw
    have hg : versionGate cls expr kwargs = .ok () := by
      unfold versionGate
      rw [if_neg]
      simp [h1, h2]
    have hloop : kwargsParseLoop
        (fun f occs => _parse_field env (from_list env fuel) fuel f occs)
        cls.pyName cls.fields kwargs =
        .error (.valueError
          ("Encountered unknown field: '" ++ k ++ "' for '" ++ cls.pyName ++ "'")) := by
      rw [hkw]
      unfold kwargsParseLoop
      rw [hfind]
    unfold from_list
    rw [hsplit]
    show (match versionGate cls expr kwargs with
      | .error e => Except.error e
      | .ok () => _) = _
    rw [hg]
    show (match kwargsParseLoop
        (fun f occs => _parse_field env (from_list env fuel) fuel f occs)
        cls.pyName cls.fields kwargs with
      | .error e => Except.error e
      | .ok kw => _) = _
    rw [hloop]

/-- C3 witness: a `Footprint3dModel` argument list with the unknown
keyword group `(nope 1)` fails with the unknown-field `ValueError`. -/
theorem C3_unknown_field_rejected_witness :
    from_list theEnv 10 footprint3dModel
        [.list [.atom "nope" false, .atom "1" false]] =
      .error (.valueError
        "Encountered unknown field: 'nope' for 'Footprint3dModel'") :=
  (C3_unknown_field_rejected theEnv 9 footprint3dModel
      [.list [.atom "nope" false, .atom "1" false]] []
      [("nope", [[.atom "1" false]])] "nope" [[.atom "1" false]]
      rfl rfl (by decide)).2
    (by decide) (by decide) [] rfl

/-- C2: version gate with atomicity. For any record schema whose tag is
`kicad_sch` or `kicad_pcb` (each declaring one accepted version string),
any argument list of a top-level document (more than the four elements
covered by the minimum-size guard) that splits successfully and whose
first `version` keyword occurrence carries a value different from the
accepted one makes `from_list` raise `VersionError` — for every possible
content of the remaining fields, so before any field coercion or
construction, and no instance is ever returned. -/
theorem C2_version_gate (env : Env) (fuel : ℕ) (cls : RecordSchema)
    (expr : List SExpr) (args : List SExpr)
    (kwargs : List (String × List (List SExpr)))
    (rest : List SExpr) (occs : List (List SExpr)) (v : String) (q : Bool)
    (acc : String)
    (htag : cls.tag = "kicad_sch" ∨ cls.tag = "kicad_pcb")
    (hacc : cls.accepted = some acc)
    (hsplit : _split_args expr = .ok (args, kwargs))
    (hver : lookupAssoc kwargs "version" = some ((SExpr.atom v q :: rest) :: occs))
    (hbad : v ≠ acc)
    (hlen : 4 < expr.length) :
    from_list env (fuel + 1) cls expr =
      .error (.versionError (cls.versionMsgPre ++ v ++ cls.versionMsgPost)) := by
  have hgate : versionGate cls expr kwargs =
      .error (.versionError (cls.versionMsgPre ++ v ++ cls.versionMsgPost)) := by
    unfold versionGate
    rw [if_pos htag, if_neg (by omega : ¬ expr.length ≤ 4), hver]
    unfold check_version
    rw [hacc]
    dsimp only
    rw [if_neg hbad]
  unfold from_list
  rw [hsplit]
  show (match versionGate cls expr kwargs with
    | .error e => Except.error e
    | .ok () => _) = _
  rw [hgate]

/-- C2 witness: a five-element `kicad_sch` argument list carrying
`(version 99)` raises the schematic's `VersionError`. -/
theorem C2_version_gate_witness :
    from_list theEnv 10 schematic
        [.atom "a" false, .atom "b" false, .atom "c" false, .atom "d" false,
         .list [.atom "version" false, .atom "99" false]] =
      .error (.versionError
        ("Only the stable KiCad 7 schematic file format i.e. '20230121' is supported. Got '99'. Please open and re-save the file with KiCad 7 if you can.")) :=
  C2_version_gate theEnv 9 schematic
    [.atom "a" false, .atom "b" false, .atom "c" false, .atom "d" false,
     .list [.atom "version" false, .atom "99" false]]
    [.atom "a" false, .atom "b" false, .atom "c" false, .atom "d" false]
    [("version", [[.atom "99" false]])] [] [] "99" false "20230121"
    (Or.inl rfl) rfl rfl rfl (by decide) (by decide)

/-- First-success behaviour of the union-trial loop, for any seed of
already-collected errors: when every member before `t` fails with a
caught error and `t` parses, the loop returns `t`'s result. -/
theorem unionGo_first_success (p : PyAnn → Except PyErr Value)
    (pre : List PyAnn) (t : PyAnn) (post : List PyAnn) (r : Value)
    (errs : List PyErr)
    (hpre : ∀ t' ∈ pre, ∃ e, p t' = .error e ∧ e.isCaughtByUnion)
    (ht : p t = .ok r) :
    unionGo p (pre ++ t :: post) errs = .ok r := by
  induction pre generalizing errs with
  | nil =>
    simp only [List.nil_append]
    unfold unionGo
    rw [ht]
  | cons t0 pre' ih =>
    obtain ⟨e0, he0, hc0⟩ := hpre t0 (by simp)
    show unionGo p (t0 :: (pre' ++ t :: post)) errs = .ok r
    unfold unionGo
    simp only [he0]
    rw [if_pos hc0]
    exact ih (errs ++ [e0]) (fun t' ht' => hpre t' (List.mem_cons_of_mem _ ht'))

/-- All-fail behaviour of the union-trial loop: with a nonempty seed of
collected errors and every member failing with a caught error, the loop
re-raises the seed's first error. -/
theorem unionGo_all_fail (p : PyAnn → Except PyErr Value)
    (ts : List PyAnn) (e0 : PyErr) (seed : List PyErr)
    (hall : ∀ t' ∈ ts, ∃ e, p t' = .error e ∧ e.isCaughtByUnion) :
    unionGo p ts (e0 :: seed) = .error e0 := by
  induction ts generalizing seed with
  | nil => rfl
  | cons t ts' ih =>
    obtain ⟨e, he, hc⟩ := hall t (by simp)
    unfold unionGo
    simp only [he]
    rw [if_pos hc]
    have hre : (e0 :: seed) ++ [e] = e0 :: (seed ++ [e]) := rfl
    rw [hre]
    exact ih (seed ++ [e]) (fun t' ht' => hall t' (List.mem_cons_of_mem _ ht'))

/-- C4: tagged-union resolution policy of `_parse_as`. Members are tried
in declared order at one common recursion depth: (1) if every member
before some member `t` fails with a caught exception and `t`'s coercion
succeeds, the union returns `t`'s result (first success wins); (2) if
the first member fails with a caught exception and every remaining
member also fails with a caught exception, the union raises the *first*
member's error, not the last or most specific one. -/
theorem C4_union_policy :
    (∀ (env : Env) (rec_ : RecordSchema → List SExpr → Except PyErr Value)
        (fuel : ℕ) (pre : List PyAnn) (t : PyAnn) (post : List PyAnn)
        (value : List (List SExpr)) (r : Value),
      (∀ t' ∈ pre, ∃ e, _parse_as env rec_ fuel t' value = .error e ∧
        e.isCaughtByUnion) →
      _parse_as env rec_ fuel t value = .ok r →
      _parse_as env rec_ (fuel + 1) (.unionA (pre ++ t :: post)) value = .ok r) ∧
    (∀ (env : Env) (rec_ : RecordSchema → List SExpr → Except PyErr Value)
        (fuel : ℕ) (t : PyAnn) (ts : List PyAnn)
        (value : List (List SExpr)) (e : PyErr),
      _parse_as env rec_ fuel t value = .error e → e.isCaughtByUnion →
      (∀ t' ∈ ts, ∃ e', _parse_as env rec_ fuel t' value = .error e' ∧
        e'.isCaughtByUnion) →
      _parse_as env rec_ (fuel + 1) (.unionA (t :: ts)) value = .error e) := by
  constructor
  · intro env rec_ fuel pre t post value r hpre ht
    show unionGo (fun sub => _parse_as env rec_ fuel sub value)
      (pre ++ t :: post) [] = .ok r
    exact unionGo_first_success _ pre t post r [] hpre ht
  · intro env rec_ fuel t ts value e ht hc hall
    show unionGo (fun sub => _parse_as env rec_ fuel sub value)
      (t :: ts) [] = .error e
    unfold unionGo
    simp only [ht]
    rw [if_pos hc]
    exact unionGo_all_fail _ ts e [] hall

/-- C4 witness: the union `int | float` on the body `zz` fails in both
members with `ValueError` and raises the first member's error (the `int`
parse failure), not the `float` one. -/
theorem C4_union_policy_witness :
    _parse_as theEnv (fun _ _ => .error .recursionError) 6
        (.unionA [.intA, .floatA]) [[.atom "zz" false]] =
      .error (.valueError "invalid literal for int(): zz") :=
  C4_union_policy.2 theEnv (fun _ _ => .error .recursionError) 5 .intA [.floatA]
    [[.atom "zz" false]] (.valueError "invalid literal for int(): zz")
    rfl rfl
    (by
      intro t' ht'
      simp only [List.mem_singleton] at ht'
      subst ht'
      exact ⟨.valueError "could not convert string to float: zz", rfl, rfl⟩)

/-! ## Facts about `number_to_str` for the general part of C5 -/

/-- Lemma: `dropWhile` distributes over an append whose left part is not dropped
entirely. -/
theorem dropWhile_append_of_ne_nil {α : Type} (p : α → Bool) (a b : List α)
    (h : a.dropWhile p ≠ []) : (a ++ b).dropWhile p = a.dropWhile p ++ b := by
  induction a with
  | nil => exact absurd rfl h
  | cons x t ih =>
    by_cases hx : p x = true
    · rw [List.cons_append, List.dropWhile_cons_of_pos hx,
        List.dropWhile_cons_of_pos hx]
      exact ih (by rwa [List.dropWhile_cons_of_pos hx] at h)
    · rw [List.cons_append,
        List.dropWhile_cons_of_neg (by simpa using hx),
        List.dropWhile_cons_of_neg (by simpa using hx)]
      simp

/-- Lemma: `dropWhile` skips a fully-dropped left part of an append. -/
theorem dropWhile_append_of_all {α : Type} (p : α → Bool) (a b : List α)
    (h : ∀ x ∈ a, p x = true) : (a ++ b).dropWhile p = b.dropWhile p := by
  induction a with
  | nil => rfl
  | cons x t ih =>
    rw [List.cons_append, List.dropWhile_cons_of_pos (h x (by simp))]
    exact ih fun y hy => h y (by simp [hy])

/-- The head surviving a `dropWhile` does not satisfy the predicate. -/
theorem head?_dropWhile_ne {α : Type} (p : α → Bool) (l : List α) (x : α)
    (h : (l.dropWhile p).head? = some x) : p x = false := by
  induction l with
  | nil => simp [List.dropWhile] at h
  | cons a t ih =>
    by_cases ha : p a = true
    · rw [List.dropWhile_cons_of_pos ha] at h
      exact ih h
    · rw [List.dropWhile_cons_of_neg (by simpa using ha)] at h
      simp only [List.head?_cons, Option.some.injEq] at h
      subst h
      simpa using ha

/-- Lemma: `stripTrailing` distributes over an append whose right part does not
strip to nothing. -/
theorem stripTrailing_append_of_ne_nil (c : Char) (xs ys : List Char)
    (h : stripTrailing c ys ≠ []) :
    stripTrailing c (xs ++ ys) = xs ++ stripTrailing c ys := by
  unfold stripTrailing at *
  rw [List.reverse_append,
    dropWhile_append_of_ne_nil _ _ _ (by
      intro hh
      exact h (by rw [hh]; rfl)),
    List.reverse_append, List.reverse_reverse]

/-- Lemma: `stripTrailing` removes an entirely-stripped right part of an append. -/
theorem stripTrailing_append_of_all (c : Char) (xs ys : List Char)
    (h : ∀ x ∈ ys, x = c) :
    stripTrailing c (xs ++ ys) = stripTrailing c xs := by
  unfold stripTrailing
  rw [List.reverse_append, dropWhile_append_of_all _ _ _ (by
    intro x hx
    simp only [List.mem_reverse] at hx
    simpa using h x hx)]

/-- A list not ending in `c` is unchanged by `stripTrailing c`. -/
theorem stripTrailing_eq_self (c : Char) (l : List Char)
    (h : l.getLast? ≠ some c) : stripTrailing c l = l := by
  unfold stripTrailing
  cases hr : l.reverse with
  | nil =>
    have : l = [] := by simpa using congrArg List.reverse hr
    simp [this]
  | cons a t =>
    have ha : l.getLast? = some a := by
      have := List.head?_reverse l
      rw [hr] at this
      simpa using this.symm
    have hac : ¬ a = c := fun hh => h (by rwa [hh] at ha)
    rw [List.dropWhile_cons_of_neg (by simpa using hac), ← hr,
      List.reverse_reverse]

/-- The result of `stripTrailing c` never ends in `c`. -/
theorem stripTrailing_getLast?_ne (c : Char) (l : List Char) :
    (stripTrailing c l).getLast? ≠ some c := by
  unfold stripTrailing
  intro h
  rw [List.getLast?_reverse] at h
  exact absurd (head?_dropWhile_ne _ _ _ h) (by simp)

/-- A list that strips to nothing was all `c`. -/
theorem stripTrailing_eq_nil_all (c : Char) (l : List Char)
    (h : stripTrailing c l = []) : ∀ x ∈ l, x = c := by
  unfold stripTrailing at h
  have h2 : l.reverse.dropWhile (· = c) = [] := by
    have := congrArg List.reverse h
    simpa using this
  intro x hx
  have := List.dropWhile_eq_nil_iff.mp h2 x (by simpa using hx)
  simpa using this

/-- Lemma: `stripTrailing` yields a prefix of its input. -/
theorem stripTrailing_isPrefixOf (c : Char) (l : List Char) :
    stripTrailing c l <+: l := by
  unfold stripTrailing
  rw [← List.reverse_suffix]
  simpa using List.dropWhile_suffix (l := l.reverse) (· = c)

/-- Members of the stripped list are members of the input. -/
theorem stripTrailing_mem (c : Char) (l : List Char) (x : Char)
    (hx : x ∈ stripTrailing c l) : x ∈ l :=
  (stripTrailing_isPrefixOf c l).sublist.mem hx

/-- The stripped list is no longer than the input. -/
theorem stripTrailing_length_le (c : Char) (l : List Char) :
    (stripTrailing c l).length ≤ l.length :=
  (stripTrailing_isPrefixOf c l).length_le

/-- Every character emitted by `digitChar` below ten is a decimal digit. -/
theorem digitChar_isDigit (n : ℕ) (h : n < 10) : (digitChar n).isDigit = true := by
  interval_cases n <;> decide

/-- Every character of `natDigitsAux` is a decimal digit. -/
theorem natDigitsAux_digits (fuel : ℕ) :
    ∀ (n : ℕ), ∀ c ∈ natDigitsAux fuel n, c.isDigit = true := by
  induction fuel with
  | zero => intro n c hc; simp [natDigitsAux] at hc
  | succ fuel ih =>
    intro n c hc
    unfold natDigitsAux at hc
    by_cases hn : n < 10
    · rw [if_pos hn] at hc
      simp only [List.mem_singleton] at hc
      subst hc
      exact digitChar_isDigit n hn
    · rw [if_neg hn] at hc
      rcases List.mem_append.mp hc with h1 | h2
      · exact ih (n / 10) c h1
      · simp only [List.mem_singleton] at h2
        subst h2
        exact digitChar_isDigit _ (Nat.mod_lt _ (by omega))

/-- Every character of `natToDigits` is a decimal digit. -/
theorem natToDigits_digits (n : ℕ) : ∀ c ∈ natToDigits n, c.isDigit = true :=
  natDigitsAux_digits (n + 1) n

/-- Lemma: `natToDigits` is never empty. -/
theorem natToDigits_ne_nil (n : ℕ) : natToDigits n ≠ [] := by
  unfold natToDigits natDigitsAux
  by_cases hn : n < 10
  · simp [hn]
  · simp [hn]

/-- A number below `10 ^ k` (with `k ≥ 1`) has at most `k` digits. -/
theorem natDigitsAux_length_le (fuel : ℕ) :
    ∀ (n k : ℕ), n < 10 ^ k → 1 ≤ k → (natDigitsAux fuel n).length ≤ k := by
  induction fuel with
  | zero => intro n k _ _; simp [natDigitsAux]
  | succ fuel ih =>
    intro n k hn hk
    unfold natDigitsAux
    by_cases h10 : n < 10
    · simpa [h10] using hk
    · rw [if_neg h10]
      have hk2 : 2 ≤ k := by
        by_contra hlt
        have : k = 1 := by omega
        subst this
        simp at hn
        omega
      have hdiv : n / 10 < 10 ^ (k - 1) := by
        rw [Nat.div_lt_iff_lt_mul (by omega : 0 < 10)]
        calc n < 10 ^ k := hn
        _ = 10 ^ (k - 1) * 10 := by
          rw [← Nat.pow_succ]
          congr 1
          omega
      have := ih (n / 10) (k - 1) hdiv (by omega)
      simp only [List.length_append, List.length_singleton]
      omega

/-- A number below `10 ^ k` (with `k ≥ 1`) prints with at most `k`
digits. -/
theorem natToDigits_length_le (n k : ℕ) (hn : n < 10 ^ k) (hk : 1 ≤ k) :
    (natToDigits n).length ≤ k :=
  natDigitsAux_length_le (n + 1) n k hn hk

/-- Length of the zero-padded fraction block. -/
theorem padZeros_length (l : List Char) (n : ℕ) (h : l.length ≤ n) :
    (padZeros l n).length = n := by
  simp only [padZeros, List.length_append, List.length_replicate]
  omega

/-- Members of the zero-padded block are zeros or members of the input. -/
theorem padZeros_mem (l : List Char) (n : ℕ) (x : Char)
    (hx : x ∈ padZeros l n) : x = '0' ∨ x ∈ l := by
  rcases List.mem_append.mp hx with h1 | h2
  · exact Or.inl (List.eq_of_mem_replicate h1)
  · exact Or.inr h2

/-- The two-stage `rstrip("0").rstrip(".")` pipeline applied to a
formatted number `sign ++ digits ++ "." ++ fraction`: the fractional
zeros are stripped, and the decimal point disappears exactly when the
whole fraction was zeros. -/
theorem strip_pipeline (sg A pad : List Char)
    (hA_ne : A ≠ []) (hA_digits : ∀ c ∈ A, c.isDigit = true)
    (hpad_digits : ∀ c ∈ pad, c.isDigit = true) :
    stripTrailing '.' (stripTrailing '0' (sg ++ (A ++ '.' :: pad))) =
      sg ++ A ++
        (if stripTrailing '0' pad = [] then [] else '.' :: stripTrailing '0' pad) := by
  have hlastA : (sg ++ A).getLast? ≠ some '.' := by
    rw [List.getLast?_append_of_ne_nil sg hA_ne,
      List.getLast?_eq_getLast_of_ne_nil hA_ne]
    intro h
    have hm := List.getLast_mem hA_ne
    have hd := hA_digits _ hm
    rw [Option.some.injEq] at h
    rw [h] at hd
    exact absurd hd (by decide)
  by_cases hfr : stripTrailing '0' pad = []
  · have hall := stripTrailing_eq_nil_all '0' pad hfr
    have hview : sg ++ (A ++ '.' :: pad) = ((sg ++ A) ++ ['.']) ++ pad := by
      simp
    rw [hview, stripTrailing_append_of_all '0' _ pad hall,
      stripTrailing_eq_self '0' _ (by
        rw [List.getLast?_append_of_ne_nil _ (by simp : (['.'] : List Char) ≠ [])]
        decide),
      stripTrailing_append_of_all '.' _ ['.'] (by simp),
      stripTrailing_eq_self '.' _ hlastA, if_pos hfr]
    simp
  · have h1 : stripTrailing '0' ('.' :: pad) = '.' :: stripTrailing '0' pad := by
      have := stripTrailing_append_of_ne_nil '0' ['.'] pad hfr
      simpa using this
    have hview : sg ++ (A ++ '.' :: pad) = (sg ++ A) ++ ('.' :: pad) := by
      simp
    rw [hview,
      stripTrailing_append_of_ne_nil '0' _ ('.' :: pad) (by rw [h1]; simp),
      h1,
      stripTrailing_eq_self '.' _ (by
        rw [List.getLast?_append_of_ne_nil _
          (by simp : ('.' :: stripTrailing '0' pad) ≠ [])]
        have hcons : ('.' :: stripTrailing '0' pad) = ['.'] ++ stripTrailing '0' pad := rfl
        rw [hcons, List.getLast?_append_of_ne_nil _ hfr,
          List.getLast?_eq_getLast_of_ne_nil hfr]
        intro h
        have hm := List.getLast_mem hfr
        have hd := hpad_digits _ (stripTrailing_mem '0' pad _ hm)
        rw [Option.some.injEq] at h
        rw [h] at hd
        exact absurd hd (by decide)),
      if_neg hfr]

/-- C5: numeric canonicalization. At the default precision,
`number_to_str` maps `1.000` to `"1"`, `2.342e-6` to `"0.000002"` and
`1000` to `"1000"`; and for every value the output is plain fixed-point
text: an optional minus sign, the integer digits, and an optional
fraction of at most six digits with no trailing zero and no trailing
decimal point — never exponential notation (no `e` can occur). -/
theorem C5_numeric_canonicalization :
    number_to_str 1 = "1" ∧
    number_to_str (mkRat 2342 1000000000) = "0.000002" ∧
    number_to_str 1000 = "1000" ∧
    ∀ v : ℚ, ∃ (sign : List Char) (ip : ℕ) (frac : List Char),
      (sign = [] ∨ sign = ['-']) ∧
      (number_to_str v).data =
        sign ++ natToDigits ip ++ (if frac = [] then [] else '.' :: frac) ∧
      frac.length ≤ 6 ∧
      (∀ c ∈ frac, c.isDigit = true) ∧
      frac.getLast? ≠ some '0' ∧
      (∀ c ∈ (number_to_str v).data, c.isDigit = true ∨ c = '-' ∨ c = '.') ∧
      'e' ∉ (number_to_str v).data := by
  refine ⟨by decide, by decide, by decide, ?_⟩
  intro v
  set S := roundHalfEven (v.num * 10 ^ 6) v.den with hS
  set sg : List Char := if S < 0 then ['-'] else [] with hsg
  set ip : ℕ := S.natAbs / 10 ^ 6 with hip
  set fp : ℕ := S.natAbs % 10 ^ 6 with hfp
  set pad : List Char := padZeros (natToDigits fp) 6 with hpadd
  have hdata : (number_to_str v).data =
      stripTrailing '.' (stripTrailing '0' (sg ++ (natToDigits ip ++ '.' :: pad))) := rfl
  have hsg_or : sg = [] ∨ sg = ['-'] := by
    by_cases h : S < 0
    · exact Or.inr (by rw [hsg, if_pos h])
    · exact Or.inl (by rw [hsg, if_neg h])
  have hpad_digits : ∀ c ∈ pad, c.isDigit = true := by
    intro c hc
    rcases padZeros_mem _ _ _ hc with h | h
    · rw [h]; decide
    · exact natToDigits_digits fp c h
  have hfp_lt : fp < 10 ^ 6 := Nat.mod_lt _ (by norm_num)
  have hpad_len : pad.length = 6 :=
    padZeros_length _ _ (natToDigits_length_le fp 6 hfp_lt (by norm_num))
  have hpipe := strip_pipeline sg (natToDigits ip) pad (natToDigits_ne_nil ip)
    (natToDigits_digits ip) hpad_digits
  have hdata2 : (number_to_str v).data =
      sg ++ natToDigits ip ++
        (if stripTrailing '0' pad = [] then [] else '.' :: stripTrailing '0' pad) := by
    rw [hdata, hpipe]
  refine ⟨sg, ip, stripTrailing '0' pad, hsg_or, hdata2, ?_, ?_, ?_, ?_, ?_⟩
  · calc (stripTrailing '0' pad).length ≤ pad.length := stripTrailing_length_le _ _
    _ = 6 := hpad_len
  · intro c hc
    exact hpad_digits c (stripTrailing_mem _ _ _ hc)
  · exact stripTrailing_getLast?_ne '0' pad
  · intro c hc
    rw [hdata2] at hc
    rcases List.mem_append.mp hc with h1 | h2
    · rcases List.mem_append.mp h1 with ha | hb
      · rcases hsg_or with hh | hh
        · rw [hh] at ha; simp at ha
        · rw [hh] at ha
          simp only [List.mem_singleton] at ha
          exact Or.inr (Or.inl ha)
      · exact Or.inl (natToDigits_digits ip c hb)
    · by_cases hfr : stripTrailing '0' pad = []
      · rw [if_pos hfr] at h2; simp at h2
      · rw [if_neg hfr] at h2
        rcases List.mem_cons.mp h2 with h3 | h4
        · exact Or.inr (Or.inr h3)
        · exact Or.inl (hpad_digits c (stripTrailing_mem _ _ _ h4))
  · intro he
    rw [hdata2] at he
    rcases List.mem_append.mp he with h1 | h2
    · rcases List.mem_append.mp h1 with ha | hb
      · rcases hsg_or with hh | hh
        · rw [hh] at ha; simp at ha
        · rw [hh] at ha; simp at ha
      · have := natToDigits_digits ip 'e' hb
        exact absurd this (by decide)
    · by_cases hfr : stripTrailing '0' pad = []
      · rw [if_pos hfr] at h2; simp at h2
      · rw [if_neg hfr] at h2
        rcases List.mem_cons.mp h2 with h3 | h4
        · exact absurd h3 (by decide)
        · have := hpad_digits 'e' (stripTrailing_mem _ _ _ h4)
          exact absurd this (by decide)
